import Mathlib

/-!
Shallow embedding of the gtree directory-tree renderer (C sources: gtree.c,
print.c, visit_hash.c, option_parsing.c, plus the legacy variant gbak/gtree.c).

Modelling conventions:
* A filesystem identity (`st_dev`, `st_ino`) is a pair of naturals.
* The filesystem is a deterministic finite model: an association list mapping a
  directory identity to its entry list (the readdir enumeration order), plus an
  `openable` predicate standing for opendir success.  `stat` on an entry is
  deterministic and is recorded in the entry (`target : FType`); `stat` failure
  is the `FType.statFail` constructor (the C sets `st.st_mode = 0` in that
  case).  `readlink` results are recorded per entry (`linkTarget`), with the
  empty string standing for readlink failure exactly as in the C sources.
* stdout is a list of printed lines (without the trailing newline); the
  diagnostic stream collects the perror / error messages the C writes to
  stderr (version/debug chatter is omitted).
* The khashl.h hash-set backing of visit_hash.c is an external library not
  present in the repository; per its documented contract (absent flag from
  put, lookup without mutation) the visited set is modelled as a list of
  identities used as a finite set.
-/

namespace GTree

/-- Filesystem identity: the (st_dev, st_ino) pair. -/
abbrev Ident := Nat × Nat

/-- Result of stat (following symlinks) on an entry: directory (with its
identity), regular file (with st_size), some other file type, or stat failure
(the C stores `st_mode = 0` in that case). -/
inductive FType where
  | dir (id : Ident)
  | reg (size : Nat)
  | other
  | statFail
deriving DecidableEq, Repr

/-- S_ISDIR on the stat result (false for the st_mode = 0 failure marker). -/
def FType.isDir : FType → Bool
  | .dir _ => true
  | _ => false

/-- S_ISREG on the stat result. -/
def FType.isReg : FType → Bool
  | .reg _ => true
  | _ => false

/-- st_size of the stat result (only ever read on regular files in the C). -/
def FType.size : FType → Nat
  | .reg s => s
  | _ => 0

/-- The (st_dev, st_ino) pair of the stat result.  The traversal only reads it
on directory targets (queued SubDirNodes always carry a directory target). -/
def FType.ident : FType → Ident
  | .dir i => i
  | _ => (0, 0)

/-- stat success: the C's `stat(...) == 0` test; failure is `statFail`. -/
def FType.statOk : FType → Bool
  | .statFail => false
  | _ => true

/-- One raw directory entry as the readdir loop sees it: its d_name, whether
lstat succeeded, S_ISLNK of the lstat result, the (deterministic) stat result
following links, and the readlink text ("" when readlink fails, matching the C
fallback). -/
structure Entry where
  name : String
  lstatOk : Bool
  isLink : Bool
  target : FType
  linkTarget : String
deriving DecidableEq, Repr

/-- The filesystem model: entry lists per directory identity (readdir order)
and opendir success per directory identity. -/
structure FS where
  dirs : List (Ident × List Entry)
  openable : Ident → Bool

/-- Entries of a directory identity (empty when the identity is not in the
table, i.e. the directory is empty). -/
def FS.entries (fs : FS) (i : Ident) : List Entry :=
  match fs.dirs.find? (fun p => decide (p.1 = i)) with
  | some p => p.2
  | none => []

/-- Command line options (option_parsing.h / option_parsing.c). -/
structure Options where
  show_help : Bool
  show_file_stats : Bool
  follow_links : Bool
  show_hidden : Bool
  show_files : Bool
  colour_files : Bool
  max_depth : Nat

/-- MAX_DEPTH from gtree.h: depth cap and stack array sizing constant. -/
def MAX_DEPTH : Nat := 1024

/-- The -d argument handling of parse_options: atoi result clamped below to 2
and above to the default depth (MAX_DEPTH). -/
def parse_depth (n : Int) (default_depth : Nat) : Nat :=
  if n < 2 then 2
  else if n > (default_depth : Int) then default_depth
  else n.toNat

/-- ActivityReport from gtree.h: the process-lifetime accumulator. -/
structure ActivityReport where
  TOTAL_file_count : Nat
  TOTAL_linked_files : Nat
  TOTAL_file_size : Nat
  TOTAL_directories : Nat
  TOTAL_linked_directories : Nat
  TOTAL_depth : Nat
deriving DecidableEq, Repr

/-- The all-zero ActivityReport (`ActivityReport final_report = {0}`). -/
def zeroReport : ActivityReport := ⟨0, 0, 0, 0, 0, 0⟩

/-- track_max_depth from gtree.c. -/
def track_max_depth (report : ActivityReport) (current_depth : Nat) : ActivityReport :=
  if report.TOTAL_depth < current_depth then { report with TOTAL_depth := current_depth }
  else report

/-- SubDirNode from gtree.h: one queued directory-typed child.  `target`
records what stat on `path` returns (deterministic filesystem model). -/
structure SubDirNode where
  path : String
  is_symlink : Bool
  sym_path : String
  target : FType
deriving DecidableEq, Repr

/-- SubDirFile from gtree.h: one queued file display line.  The Lean list head
corresponds to the C tail pointer; walking the C `prev` links from the tail is
walking the Lean list front to back. -/
structure SubDirFile where
  name : String
  is_symlink : Bool
deriving DecidableEq, Repr

/-- DirFrame from gtree.h.  `id` is the identity of the directory the open
DIR* handle refers to (the model needs it to enumerate entries); `scanned`
plays the role of the `subdirs != NULL` phase test, `pending` the role of the
`current` iterator.  `ancestor_siblings` is the rendering bitmap, read only at
indices below the frame's depth. -/
structure Frame where
  path : String
  id : Ident
  depth : Nat
  scanned : Bool
  pending : List SubDirNode
  subfiles : List SubDirFile
  dir_file_count : Nat
  dir_file_size : Nat
  ancestor_siblings : Nat → Bool
  is_last : Bool

/-- Machine state: the explicit frame stack (head = top), the visited identity
set, the report accumulator, and the two output streams. -/
structure MState where
  stack : List Frame
  visited : List Ident
  report : ActivityReport
  stdout : List String
  stderr : List String

/-! ### String helpers (strrchr-based name extraction, human_size) -/

/-- Helper for afterLastSlash: current segment is accumulated reversed and
reset at each slash. -/
def alsGo : List Char → List Char → List Char
  | [], cur => cur.reverse
  | c :: cs, cur => if c = '/' then alsGo cs [] else alsGo cs (c :: cur)

/-- The text after the last '/' of a string (the whole string when it has no
slash): `strrchr(s, '/') + 1`. -/
def afterLastSlash (s : String) : String :=
  ⟨alsGo s.data []⟩

/-- d_name[0] == '.' test of the hidden-entry filter. -/
def isHiddenName (s : String) : Bool :=
  match s.data with
  | [] => false
  | c :: _ => decide (c = '.')

/-- Decimal string with one decimal digit from a value counted in tenths. -/
def tenthsRepr (n10 : Nat) : String :=
  toString (n10 / 10) ++ "." ++ toString (n10 % 10)

/-- human_size from print.c.  The C computes with a double and formats with
%.0f / %.1f; for bytes < 1024 (the "B" unit, the only branch the verified
claims exercise) this is exact.  The larger units are modelled with exact
tenths and half-up rounding, approximating the C's one-decimal float output. -/
def human_size (bytes : Nat) : String :=
  if bytes < 1024 then toString bytes ++ "B"
  else if bytes < 1024 * 1024 then tenthsRepr ((bytes * 10 + 512) / 1024) ++ "K"
  else if bytes < 1024 * 1024 * 1024 then
    tenthsRepr ((bytes * 10 + 1024 * 1024 / 2) / (1024 * 1024)) ++ "M"
  else if bytes < 1024 * 1024 * 1024 * 1024 then
    tenthsRepr ((bytes * 10 + 1024 * 1024 * 1024 / 2) / (1024 * 1024 * 1024)) ++ "G"
  else tenthsRepr ((bytes * 10 + 1024 * 1024 * 1024 * 1024 / 2) / (1024 * 1024 * 1024 * 1024)) ++ "T"

/-! ### Tree renderer (print.c) -/

/-- Concatenation of a list of strings. -/
def strJoin (l : List String) : String := l.foldl (fun a b => a ++ b) ""

/-- print_tree_prefix from print.c: for each ancestor level 1 .. depth-1 print
a continuation glyph or blank padding. -/
def tree_prefix_str (frame : Frame) : String :=
  strJoin (((List.range frame.depth).drop 1).map
    (fun i => if frame.ancestor_siblings i then "│   " else "    "))

/-- dir_name computation of print_entry_line: text after the last slash when
the path has one and depth > 0, else the whole path. -/
def dir_name_of (basePath : String) (depth : Nat) : String :=
  if basePath.data.contains '/' && decide (0 < depth) then afterLastSlash basePath
  else basePath

/-- ANSI colour-on escape used for file names (print.c TCOL). -/
def TCOL : String := "\x1b[36m"

/-- ANSI colour-reset escape (print.c RESET). -/
def RESET : String := "\x1b[0m"

/-- print_directory_content from print.c: the portion of a directory line
after prefix and connector. -/
def print_directory_content (name : String) (is_symdir : Bool) (symPath : String)
    (is_recursive : Bool) (show_stats : Bool) (fc : Nat) (fsz : Nat) : String :=
  if is_symdir then
    "@" ++ name ++ " -> " ++ symPath ++ (if is_recursive then " [recursive]" else "")
  else if show_stats && decide (0 < fc) then
    name ++ " [Files: " ++ toString fc ++ "] [Size: " ++ human_size fsz ++ "]" ++
      (if is_recursive then " [recursive]" else "")
  else
    name ++ (if is_recursive then " [recursive]" else "")

/-- print_entry_line from print.c, producing the full output line.  NULL
string arguments of the C are modelled by "".  The current gtree.c passes the
Options pointer; the printing reads `show_file_stats` and `colour_files` from
it, which are the two explicit booleans of this (print.c) signature. -/
def print_entry_line (frame : Option Frame) (is_last : Bool) (is_symdir : Bool)
    (symPath : String) (is_recursive : Bool) (show_stats : Bool)
    (entry_name : String) (is_dir : Bool) (colour_files : Bool) : String :=
  let basePath := (frame.map (·.path)).getD ""
  let depth := (frame.map (·.depth)).getD 0
  let fc := (frame.map (·.dir_file_count)).getD 0
  let fsz := (frame.map (·.dir_file_size)).getD 0
  let dn := dir_name_of basePath depth
  let pre := match frame with
    | some f => tree_prefix_str f
    | none => ""
  if !is_dir then
    pre ++ (if depth = 0 then "" else if is_last then "    " else "│   ") ++ ": " ++
      (if colour_files then TCOL else "") ++ entry_name ++
      (if colour_files then RESET else "")
  else
    pre ++ (if 0 < depth then (if is_last then "└" else "├") ++ "── " else "") ++
      print_directory_content dn is_symdir symPath is_recursive show_stats fc fsz

/-! ### Entry classifier (print.c: add_subfile, HandleFiles) -/

/-- add_subfile from print.c: pushes a new SubDirFile in front of the tail
pointer.  The Lean list head plays the role of the C tail pointer. -/
def add_subfile (is_symlink : Bool) (fname : String) (tail : List SubDirFile) :
    List SubDirFile :=
  ⟨fname, is_symlink⟩ :: tail

/-- HandleFiles from print.c.  `st` is the stat (link-following) result with
`statFail` standing for the C's `st_mode = 0` failure marker, `lst_is_link` is
S_ISLNK of the lstat result, and `rl` is the readlink text for `fname` (""
when readlink fails).  Returns the updated frame and report. -/
def HandleFiles (fname : String) (frame : Frame) (st : FType) (lst_is_link : Bool)
    (rl : String) (report : ActivityReport) (show_files : Bool) :
    Frame × ActivityReport :=
  let is_link := lst_is_link
  let target_is_file := is_link && st.isReg
  let dangling := is_link && decide (st = FType.statFail)
  if (!is_link && st.isReg) || target_is_file then
    let frame := { frame with
      dir_file_count := frame.dir_file_count + 1
      dir_file_size := frame.dir_file_size + st.size }
    let report := { report with
      TOTAL_file_count := report.TOTAL_file_count + 1
      TOTAL_file_size := report.TOTAL_file_size + st.size
      TOTAL_linked_files := report.TOTAL_linked_files + (if is_link then 1 else 0) }
    let frame := if show_files then
        let fdet := if is_link then
            "@" ++ afterLastSlash fname ++ " (-> " ++ rl ++ ")"
          else
            afterLastSlash fname ++ " (" ++ human_size st.size ++ ")"
        { frame with subfiles := add_subfile is_link fdet frame.subfiles }
      else frame
    (frame, report)
  else if is_link && dangling then
    let frame := { frame with dir_file_count := frame.dir_file_count + 1 }
    let report := { report with
      TOTAL_file_count := report.TOTAL_file_count + 1
      TOTAL_linked_files := report.TOTAL_linked_files + 1 }
    let frame := if show_files then
        let fdet := "@" ++ afterLastSlash fname ++ " -> " ++ rl ++ " [dangling]"
        { frame with subfiles := add_subfile true fdet frame.subfiles }
      else frame
    (frame, report)
  else
    (frame, report)

/-! ### Identity Set (visit_hash.c over the khashl contract) -/

/-- add_visited from visit_hash.c: khashl put, returning the absent flag (true
when the key was new and inserted) and the updated set. -/
def add_visited (visited : List Ident) (i : Ident) : Bool × List Ident :=
  if i ∈ visited then (false, visited) else (true, i :: visited)

/-- visited_before from visit_hash.c: pure membership lookup. -/
def visited_before (visited : List Ident) (i : Ident) : Bool :=
  decide (i ∈ visited)

/-! ### Frame creation and the scan phase (gtree.c) -/

/-- Create_Frame from gtree.c: allocate a frame, copy the parent's ancestry
bitmap (all-false for the root), try to opendir the directory; on opendir
failure return NULL (none).  `dirId` is the identity the path refers to. -/
def Create_Frame (fs : FS) (dirPath : String) (dirId : Ident) (dirDepth : Nat)
    (parent : Option Frame) (is_last : Bool) : Option Frame :=
  if fs.openable dirId then
    some { path := dirPath
           id := dirId
           depth := dirDepth
           scanned := false
           pending := []
           subfiles := []
           dir_file_count := 0
           dir_file_size := 0
           ancestor_siblings := match parent with
             | some p => p.ancestor_siblings
             | none => fun _ => false
           is_last := is_last }
  else none

/-- add_subdir from gtree.c restricted to building the node: path, symlink
flag, readlink target text when a symlink ("" otherwise or on readlink
failure), plus the (deterministic) stat result for the phase-2 re-stat. -/
def add_subdir_node (is_symdir : Bool) (buf : String) (e : Entry) : SubDirNode :=
  { path := buf
    is_symlink := is_symdir
    sym_path := if is_symdir then e.linkTarget else ""
    target := e.target }

/-- The readdir loop of Phase 1 (gtree.c): per entry apply the hidden filter,
the "." / ".." filter, the PATH_MAX length guard, the lstat-failure skip, then
HandleFiles, then queue directory-typed entries in enumeration order. -/
def scan_fold (opts : Options) :
    List Entry → Frame → ActivityReport → List SubDirNode →
    Frame × ActivityReport × List SubDirNode
  | [], frame, report, subs => (frame, report, subs)
  | e :: rest, frame, report, subs =>
    if !opts.show_hidden && isHiddenName e.name then
      scan_fold opts rest frame report subs
    else if e.name = "." ∨ e.name = ".." then
      scan_fold opts rest frame report subs
    else
      let buf := frame.path ++ "/" ++ e.name
      if MAX_DEPTH ≤ buf.length then
        scan_fold opts rest frame report subs
      else if !e.lstatOk then
        scan_fold opts rest frame report subs
      else
        let fr := HandleFiles buf frame e.target e.isLink e.linkTarget report opts.show_files
        let is_symdir := e.isLink && e.target.isDir
        let subs := if e.target.isDir || is_symdir then subs ++ [add_subdir_node is_symdir buf e]
          else subs
        scan_fold opts rest fr.1 fr.2 subs

/-- The lines Phase 1 prints after the scan: the directory's own line, then
(when file listing is requested) one line per queued SubDirFile, walking the
prev links from the tail, i.e. the Lean list front to back. -/
def phase1_prints (opts : Options) (f2 : Frame) : List String :=
  print_entry_line (some f2) f2.is_last false "" false opts.show_file_stats "" true
      opts.colour_files
    :: (if opts.show_files then
          f2.subfiles.map (fun sf =>
            print_entry_line (some f2) f2.is_last sf.is_symlink "" false
              opts.show_file_stats sf.name false opts.colour_files)
        else [])

/-- The frame as it stands right after the readdir loop of Phase 1: local file
stats reset then accumulated, file queue filled, child queue stored
(`frame->subdirs = head; frame->current = head`). -/
def scan_frame (fs : FS) (opts : Options) (frame : Frame) (report : ActivityReport) :
    Frame :=
  let r := scan_fold opts (fs.entries frame.id)
    { frame with dir_file_count := 0, dir_file_size := 0 } report []
  { r.1 with scanned := true, pending := r.2.2 }

/-- Phase 1 of one loop iteration (gtree.c): reset the local file stats, run
the readdir loop, store the child queue, print the directory line and the
queued file lines, release the file queue.  Returns the scanned frame, the
updated report, and the printed lines. -/
def scan_step (fs : FS) (opts : Options) (frame : Frame) (report : ActivityReport) :
    Frame × ActivityReport × List String :=
  let f2 := scan_frame fs opts frame report
  let rep2 := (scan_fold opts (fs.entries frame.id)
    { frame with dir_file_count := 0, dir_file_size := 0 } report []).2.1
  let outs := phase1_prints opts f2
  let f3 := if opts.show_files then { f2 with subfiles := [] } else f2
  (f3, rep2, outs)

/-! ### The drain phase (Phase 2 of gtree.c, current version) -/

/-- Pointwise update of the ancestry bitmap (the array store
`ancestor_siblings[i] = b`). -/
def updateAS (f : Nat → Bool) (i : Nat) (b : Bool) : Nat → Bool :=
  fun j => if j = i then b else f j

/-- The guarded ancestry-bitmap update at the start of Phase 2:
`if (frame->depth + 1 < opts.max_depth) frame->ancestor_siblings[frame->depth + 1]
= !is_last_child`. -/
def advance_frame (opts : Options) (frame : Frame) (is_last_child : Bool) : Frame :=
  if frame.depth + 1 < opts.max_depth then
    { frame with ancestor_siblings := (updateAS frame.ancestor_siblings (frame.depth + 1)
        (!is_last_child)) }
  else frame

/-- The zero-initialised temporary frame used for printing non-descended
entries (`DirFrame temp = {0}` plus path / depth / ancestor copy). -/
def temp_frame (path : String) (depth : Nat) (anc : Nat → Bool) : Frame :=
  { path := path
    id := (0, 0)
    depth := depth
    scanned := false
    pending := []
    subfiles := []
    dir_file_count := 0
    dir_file_size := 0
    ancestor_siblings := anc
    is_last := false }

/-- Phase 2 of the current gtree.c for one SubDirNode `cur`, with `frame`
already advanced past it (`frame->current = cur->next`).  Mirrors lines
207-294 of the current main: ancestry update, re-stat, then the symlinked /
plain directory branches. -/
def drain_child (fs : FS) (opts : Options) (frame : Frame) (rest : List Frame)
    (cur : SubDirNode) (visited : List Ident) (report : ActivityReport)
    (out err : List String) : MState :=
  let is_last_child := frame.pending.isEmpty
  let frame := advance_frame opts frame is_last_child
  let stat_ok := cur.target.statOk
  if cur.is_symlink then
    let already_visited := stat_ok && visited_before visited cur.target.ident
    let temp := temp_frame cur.path (frame.depth + 1) frame.ancestor_siblings
    let line := print_entry_line (some temp) is_last_child true cur.sym_path
      already_visited opts.show_file_stats "" true opts.colour_files
    let out := out ++ [line]
    let report := if stat_ok then
        { report with TOTAL_linked_directories := report.TOTAL_linked_directories + 1 }
      else report
    let depth_limit_hit := decide (opts.max_depth ≤ frame.depth + 1)
    if !already_visited && opts.follow_links && stat_ok && !depth_limit_hit then
      match Create_Frame fs cur.path cur.target.ident (frame.depth + 1) (some frame)
          is_last_child with
      | some child =>
        let av := add_visited visited cur.target.ident
        let report := if av.1 then
            { report with TOTAL_directories := report.TOTAL_directories + 1 }
          else report
        let report := track_max_depth report child.depth
        ⟨child :: frame :: rest, av.2, report, out, err⟩
      | none =>
        ⟨frame :: rest, visited, report, out, err ++ ["opendir"]⟩
    else
      let report := if !already_visited && depth_limit_hit then
          track_max_depth report (frame.depth + 1)
        else report
      ⟨frame :: rest, visited, report, out, err⟩
  else
    if stat_ok && cur.target.isDir then
      let already_visited := visited_before visited cur.target.ident
      let depth_limit_hit := decide (opts.max_depth ≤ frame.depth + 1)
      if !already_visited && !depth_limit_hit then
        match Create_Frame fs cur.path cur.target.ident (frame.depth + 1) (some frame)
            is_last_child with
        | some child =>
          let av := add_visited visited cur.target.ident
          let report := if av.1 then
              { report with TOTAL_directories := report.TOTAL_directories + 1 }
            else report
          let report := track_max_depth report child.depth
          ⟨child :: frame :: rest, av.2, report, out, err⟩
        | none =>
          ⟨frame :: rest, visited, report, out, err ++ ["opendir"]⟩
      else
        let temp := temp_frame cur.path (frame.depth + 1) frame.ancestor_siblings
        let line := print_entry_line (some temp) is_last_child false cur.path
          already_visited opts.show_file_stats "" true opts.colour_files
        let out := out ++ [line]
        let av := add_visited visited cur.target.ident
        let report := if av.1 then
            { report with TOTAL_directories := report.TOTAL_directories + 1 }
          else report
        let report := track_max_depth report (frame.depth + 1)
        ⟨frame :: rest, av.2, report, out, err⟩
    else
      ⟨frame :: rest, visited, report, out, err⟩

/-- Phase 2 dispatch: drain the next SubDirNode, or pop the exhausted frame
(closedir, free queues, free frame). -/
def drain_or_pop (fs : FS) (opts : Options) (frame : Frame) (rest : List Frame)
    (visited : List Ident) (report : ActivityReport) (out err : List String) :
    MState :=
  match frame.pending with
  | [] => ⟨rest, visited, report, out, err⟩
  | cur :: pendRest =>
    drain_child fs opts { frame with pending := pendRest } rest cur visited report out err

/-- One iteration of the main traversal loop (current gtree.c): peek the top
frame, run Phase 1 if the frame is not yet scanned, then Phase 2 (drain one
child or pop).  The empty stack is the loop's terminal condition. -/
def step (fs : FS) (opts : Options) (st : MState) : MState :=
  match st.stack with
  | [] => st
  | frame :: rest =>
    if frame.scanned then
      drain_or_pop fs opts frame rest st.visited st.report st.stdout st.stderr
    else
      let s := scan_step fs opts frame st.report
      drain_or_pop fs opts s.1 rest st.visited s.2.1 (st.stdout ++ s.2.2) st.stderr

/-- Fuel-indexed iteration of a step function until the stack empties; none
when the fuel runs out first. -/
def runWith (stepf : MState → MState) : Nat → MState → Option MState
  | 0, st => if st.stack.isEmpty then some st else none
  | n + 1, st => if st.stack.isEmpty then some st else runWith stepf n (stepf st)

/-- n-fold iteration of a step function (for stating reachable-state
invariants). -/
def stepN (stepf : MState → MState) : Nat → MState → MState
  | 0, st => st
  | n + 1, st => stepN stepf n (stepf st)

/-! ### Termination bookkeeping (model-side, not part of the C sources) -/

/-- The directory target identity of an entry, when it has one. -/
def entryDirTarget (e : Entry) : Option Ident :=
  match e.target with
  | .dir a => some a
  | _ => none

/-- All directory identities the filesystem model can mention: table keys plus
every directory target of every listed entry. -/
def FS.univIds (fs : FS) : List Ident :=
  fs.dirs.map Prod.fst ++ (fs.dirs.map (fun p => p.2.filterMap entryDirTarget)).flatten

/-- Total number of entries in the filesystem table: a bound on any single
directory's entry count. -/
def entriesBound (fs : FS) : Nat :=
  (fs.dirs.map (fun p => p.2.length)).sum

/-- Number of identities of the model's universe not yet visited (with
multiplicity; only its strict decrease on fresh insertion matters). -/
def unvisitedCount (fs : FS) (visited : List Ident) : Nat :=
  fs.univIds.countP (fun i => decide (i ∉ visited))

/-- Remaining work of one frame: a not-yet-scanned frame may still enqueue up
to entriesBound children; a scanned frame owes one iteration per pending child
plus the pop. -/
def frameWeight (E : Nat) (f : Frame) : Nat :=
  if f.scanned then f.pending.length + 1 else E + 2

/-- Strictly decreasing measure of the traversal loop: total frame weight plus
a block of E + 3 per never-visited identity (a push trades a fresh identity
for one new frame). -/
def gmeasure (fs : FS) (st : MState) : Nat :=
  (st.stack.map (frameWeight (entriesBound fs))).sum +
    (entriesBound fs + 3) * unvisitedCount fs st.visited

/-! ### main (current gtree.c) -/

/-- Result of a full run: the process exit code, the stdout lines, the
diagnostic (stderr) lines, and the final ActivityReport. -/
structure MainResult where
  exit_code : Nat
  stdout : List String
  stderr : List String
  report : ActivityReport
deriving DecidableEq, Repr

/-- The machine state right before the main traversal loop of the current
gtree.c: root frame pushed, and the root identity registered when the root
stat succeeded (`rootStatOk`). -/
def init_state (root : Frame) (rootId : Ident) (rootStatOk : Bool) : MState :=
  { stack := [root]
    visited := if rootStatOk then (add_visited [] rootId).2 else []
    report := zeroReport
    stdout := []
    stderr := [] }

/-- main of the current gtree.c (after option handling): fail with exit code 1
and no stdout when the starting directory cannot be opened; otherwise create
the root frame, register the root identity, and run the traversal loop.  The
fuel is the measure of the initial state (proved sufficient below); `none`
would mean the fuel ran out.  The `none` branch after the openability test is
unreachable (Create_Frame succeeds on an openable identity). -/
def gtree_main (fs : FS) (opts : Options) (rootPath : String) (rootId : Ident)
    (rootStatOk : Bool) : Option MainResult :=
  if fs.openable rootId = false then
    some ⟨1, [], ["Invalid starting directory specified"], zeroReport⟩
  else
    match Create_Frame fs rootPath rootId 0 none false with
    | none => none
    | some root =>
      let st0 := init_state root rootId rootStatOk
      match runWith (step fs opts) (gmeasure fs st0 + 1) st0 with
      | some stF => some ⟨0, stF.stdout, stF.stderr, stF.report⟩
      | none => none

/-! ### Trace observations (model-side): which directories get scanned, and
the local file stats each scan computes -/

/-- Identities of the directories scanned (entered and enumerated) during the
first n iterations of a run. -/
def scanned_ids (stepf : MState → MState) : Nat → MState → List Ident
  | 0, _ => []
  | n + 1, st =>
    match st.stack with
    | [] => []
    | f :: _ =>
      (if f.scanned then [] else [f.id]) ++ scanned_ids stepf n (stepf st)

/-- Sum, over the scan events of the first n iterations, of the
directory-local file counts each scan computes (the values the C leaves in the
frame's dir_file_count). -/
def scanTraceCount (fs : FS) (opts : Options) : Nat → MState → Nat
  | 0, _ => 0
  | n + 1, st =>
    match st.stack with
    | [] => 0
    | f :: _ =>
      (if f.scanned then 0 else
        (scan_fold opts (fs.entries f.id)
          { f with dir_file_count := 0, dir_file_size := 0 } st.report []).1.dir_file_count) +
        scanTraceCount fs opts n (step fs opts st)

/-- Sum, over the scan events of the first n iterations, of the
directory-local file byte totals each scan computes (the values the C leaves
in the frame's dir_file_size). -/
def scanTraceSize (fs : FS) (opts : Options) : Nat → MState → Nat
  | 0, _ => 0
  | n + 1, st =>
    match st.stack with
    | [] => 0
    | f :: _ =>
      (if f.scanned then 0 else
        (scan_fold opts (fs.entries f.id)
          { f with dir_file_count := 0, dir_file_size := 0 } st.report []).1.dir_file_size) +
        scanTraceSize fs opts n (step fs opts st)

/-! ### The legacy traversal variant (gbak/gtree.c) -/

/-- Phase 2 of the legacy gtree.c for one SubDirNode: the symlink branch
pushes with no depth check and no attempted-depth tracking (lines 352-379),
and the plain-directory else branch only prints, registering and counting
nothing (lines 396-405). -/
def legacy_drain_child (fs : FS) (opts : Options) (frame : Frame) (rest : List Frame)
    (cur : SubDirNode) (visited : List Ident) (report : ActivityReport)
    (out err : List String) : MState :=
  let is_last_child := frame.pending.isEmpty
  let frame := advance_frame opts frame is_last_child
  let stat_ok := cur.target.statOk
  if cur.is_symlink then
    let already_visited := stat_ok && visited_before visited cur.target.ident
    let temp := temp_frame cur.path (frame.depth + 1) frame.ancestor_siblings
    let line := print_entry_line (some temp) is_last_child true cur.sym_path
      already_visited opts.show_file_stats "" true opts.colour_files
    let out := out ++ [line]
    if !already_visited && opts.follow_links && stat_ok then
      match Create_Frame fs cur.path cur.target.ident (frame.depth + 1) (some frame)
          is_last_child with
      | some child =>
        let av := add_visited visited cur.target.ident
        let report := if av.1 then
            { report with TOTAL_directories := report.TOTAL_directories + 1 }
          else report
        let report := track_max_depth report child.depth
        let report := if stat_ok then
            { report with TOTAL_linked_directories := report.TOTAL_linked_directories + 1 }
          else report
        ⟨child :: frame :: rest, av.2, report, out, err⟩
      | none =>
        let report := if stat_ok then
            { report with TOTAL_linked_directories := report.TOTAL_linked_directories + 1 }
          else report
        ⟨frame :: rest, visited, report, out, err ++ ["opendir"]⟩
    else
      let report := if stat_ok then
          { report with TOTAL_linked_directories := report.TOTAL_linked_directories + 1 }
        else report
      ⟨frame :: rest, visited, report, out, err⟩
  else
    if stat_ok && cur.target.isDir then
      let already_visited := visited_before visited cur.target.ident
      let depth_limit_hit := decide (opts.max_depth ≤ frame.depth + 1)
      if !already_visited && !depth_limit_hit then
        match Create_Frame fs cur.path cur.target.ident (frame.depth + 1) (some frame)
            is_last_child with
        | some child =>
          let av := add_visited visited cur.target.ident
          let report := if av.1 then
              { report with TOTAL_directories := report.TOTAL_directories + 1 }
            else report
          let report := track_max_depth report child.depth
          ⟨child :: frame :: rest, av.2, report, out, err⟩
        | none =>
          ⟨frame :: rest, visited, report, out, err ++ ["opendir"]⟩
      else
        let temp := temp_frame cur.path (frame.depth + 1) frame.ancestor_siblings
        let line := print_entry_line (some temp) is_last_child false cur.path
          already_visited opts.show_file_stats "" true opts.colour_files
        ⟨frame :: rest, visited, report, out ++ [line], err⟩
    else
      ⟨frame :: rest, visited, report, out, err⟩

/-- Phase 2 dispatch of the legacy loop. -/
def legacy_drain_or_pop (fs : FS) (opts : Options) (frame : Frame) (rest : List Frame)
    (visited : List Ident) (report : ActivityReport) (out err : List String) :
    MState :=
  match frame.pending with
  | [] => ⟨rest, visited, report, out, err⟩
  | cur :: pendRest =>
    legacy_drain_child fs opts { frame with pending := pendRest } rest cur visited report
      out err

/-- One iteration of the legacy traversal loop (Phase 1 is identical to the
current version). -/
def legacy_step (fs : FS) (opts : Options) (st : MState) : MState :=
  match st.stack with
  | [] => st
  | frame :: rest =>
    if frame.scanned then
      legacy_drain_or_pop fs opts frame rest st.visited st.report st.stdout st.stderr
    else
      let s := scan_step fs opts frame st.report
      legacy_drain_or_pop fs opts s.1 rest st.visited s.2.1 (st.stdout ++ s.2.2) st.stderr

/-- main of the legacy gbak/gtree.c: unlike the current version it counts the
root directory in TOTAL_directories (when the root stat succeeded) and tracks
the root's depth before entering the loop. -/
def legacy_main (fs : FS) (opts : Options) (rootPath : String) (rootId : Ident)
    (rootStatOk : Bool) : Option MainResult :=
  if fs.openable rootId = false then
    some ⟨1, [], ["Invalid starting directory specified"], zeroReport⟩
  else
    match Create_Frame fs rootPath rootId 0 none false with
    | none => none
    | some root =>
      let vr := if rootStatOk then
          let av := add_visited [] rootId
          (av.2, if av.1 then { zeroReport with TOTAL_directories := 1 } else zeroReport)
        else ([], zeroReport)
      let report := track_max_depth vr.2 root.depth
      let st0 : MState := ⟨[root], vr.1, report, [], []⟩
      match runWith (legacy_step fs opts) (gmeasure fs st0 + 1) st0 with
      | some stF => some ⟨0, stF.stdout, stF.stderr, stF.report⟩
      | none => none

/-- A queued SubDirNode is well formed: it carries a directory target whose
identity belongs to the model's identity universe (phase 1 only queues
directory-typed entries). -/
def SubOK (fs : FS) (n : SubDirNode) : Prop :=
  n.target.isDir = true ∧ n.target.ident ∈ fs.univIds

/-- A machine state is well formed when every pending child of every stacked
frame is well formed. -/
def StateWF (fs : FS) (st : MState) : Prop :=
  ∀ f ∈ st.stack, ∀ n ∈ f.pending, SubOK fs n

/-- The frame main builds for the root directory (Create_Frame with no parent
on an openable path). -/
def root_frame (rootPath : String) (rootId : Ident) : Frame :=
  { path := rootPath
    id := rootId
    depth := 0
    scanned := false
    pending := []
    subfiles := []
    dir_file_count := 0
    dir_file_size := 0
    ancestor_siblings := fun _ => false
    is_last := false }

/-- The list n-1, n-2, ..., 1, 0: the depths of a well-formed stack from top
to bottom. -/
def countdown : Nat → List Nat
  | 0 => []
  | n + 1 => n :: countdown n

/-- Depth discipline of a state: all frames lie strictly below the depth
bound, and the stack holds exactly one frame per depth, consecutive from the
top's depth down to the root's 0. -/
def DepthsOK (D : Nat) (st : MState) : Prop :=
  (∀ g ∈ st.stack, g.depth < D) ∧
    st.stack.map (fun g => g.depth) = countdown st.stack.length

/-- The (zero or one) SubDirFile records HandleFiles queues for one entry when
file listing is requested, following exactly its classification conditions. -/
def hfQueue (fname : String) (st : FType) (lk : Bool) (rl : String) : List SubDirFile :=
  if (!lk && st.isReg) || (lk && st.isReg) then
    [⟨if lk then "@" ++ afterLastSlash fname ++ " (-> " ++ rl ++ ")"
      else afterLastSlash fname ++ " (" ++ human_size st.size ++ ")", lk⟩]
  else if lk && (lk && decide (st = FType.statFail)) then
    [⟨"@" ++ afterLastSlash fname ++ " -> " ++ rl ++ " [dangling]", true⟩]
  else []

/-- The file display records of a directory's entry list in filesystem
enumeration order (the order the C queues them in), with the same entry
filters as the readdir loop. -/
def enumQueue (opts : Options) (dirPath : String) : List Entry → List SubDirFile
  | [] => []
  | e :: rest =>
    if !opts.show_hidden && isHiddenName e.name then enumQueue opts dirPath rest
    else if e.name = "." ∨ e.name = ".." then enumQueue opts dirPath rest
    else if MAX_DEPTH ≤ (dirPath ++ "/" ++ e.name).length then enumQueue opts dirPath rest
    else if !e.lstatOk then enumQueue opts dirPath rest
    else hfQueue (dirPath ++ "/" ++ e.name) e.target e.isLink e.linkTarget ++
      enumQueue opts dirPath rest

/-! ### Concrete filesystem models used for evaluations and witnesses -/

/-- Filesystem in which every directory can be opened. -/
def allOpen : Ident → Bool := fun _ => true

/-- The section 8 scenario: root R (identity (1,1)) holding the 10-byte file
f.txt and subdirectory A (identity (1,2)); A holds the symlink loop pointing
back to R. -/
def section8FS : FS :=
  { dirs := [((1, 1), [⟨"f.txt", true, false, FType.reg 10, ""⟩,
                       ⟨"A", true, false, FType.dir (1, 2), ""⟩]),
             ((1, 2), [⟨"loop", true, true, FType.dir (1, 1), "R"⟩])]
    openable := allOpen }

/-- Options of the section 8 scenario: follow symlinked directories, default
depth, everything else off. -/
def section8Opts : Options := ⟨false, false, true, false, false, false, 1024⟩

/-- The initial state main builds for the section 8 scenario. -/
def section8Init : MState := init_state (root_frame "R" (1, 1)) (1, 1) true

/-- A root directory holding two plain files a.txt (1 byte) and b.txt
(2 bytes), enumerated in that order. -/
def twoFilesFS : FS :=
  { dirs := [((1, 1), [⟨"a.txt", true, false, FType.reg 1, ""⟩,
                       ⟨"b.txt", true, false, FType.reg 2, ""⟩])]
    openable := allOpen }

/-- Options requesting the individual file listing. -/
def twoFilesOpts : Options := ⟨false, false, false, false, true, false, 1024⟩

/-- Chain for the depth-policy comparison: R holds plain directory A; A holds
symlink s to B; B holds symlink t to C; C is empty.  Depth bound 2,
symlink-following on. -/
def chainFS : FS :=
  { dirs := [((1, 1), [⟨"A", true, false, FType.dir (1, 2), ""⟩]),
             ((1, 2), [⟨"s", true, true, FType.dir (1, 3), "B"⟩]),
             ((1, 3), [⟨"t", true, true, FType.dir (1, 4), "C"⟩]),
             ((1, 4), [])]
    openable := allOpen }

/-- Options for the depth-policy comparison: -l -d2. -/
def chainOpts : Options := ⟨false, false, true, false, false, false, 2⟩

/-- Initial state of the current machine on the chain model. -/
def chainInit : MState := init_state (root_frame "R" (1, 1)) (1, 1) true

/-- Initial state of the legacy machine on the chain model (root identity
registered and counted, root depth tracked). -/
def chainLegacyInit : MState :=
  ⟨[root_frame "R" (1, 1)], [(1, 1)],
    { zeroReport with TOTAL_directories := 1 }, [], []⟩

/-- Filesystem that can open only identity (1,1): roots or children at any
other identity fail to open (used by the C9 witness). -/
def c9FS : FS :=
  { dirs := [((1, 1), [⟨"D", true, false, FType.dir (2, 2), ""⟩])]
    openable := fun i => decide (i = (1, 1)) }

/-- The queued symlink-to-root node of the section 8 scenario, as the drain
phase sees it. -/
def c3Cur : SubDirNode := ⟨"R/A/loop", true, "R", FType.dir (1, 1)⟩

/-- The root frame of the section 8 scenario after its scan. -/
def c3Root : Frame := { root_frame "R" (1, 1) with scanned := true }

/-- The frame for subdirectory A of the section 8 scenario after its scan,
with the loop symlink still pending. -/
def c3Top : Frame :=
  { path := "R/A"
    id := (1, 2)
    depth := 1
    scanned := true
    pending := [c3Cur]
    subfiles := []
    dir_file_count := 0
    dir_file_size := 0
    ancestor_siblings := fun _ => false
    is_last := true }

/-- The section 8 scenario mid-traversal: both directories entered and
registered, the loop symlink next to drain. -/
def c3State : MState := ⟨[c3Top, c3Root], [(1, 2), (1, 1)], zeroReport, [], []⟩

/-- The scanned frame of the two-file directory (used to state the C2 witness
compactly). -/
def c2Frame : Frame :=
  scan_frame twoFilesFS twoFilesOpts (root_frame "R" (1, 1))
    (init_state (root_frame "R" (1, 1)) (1, 1) true).report

/-! ### Basic lemmas: HandleFiles and scan_fold only touch the file stats and
the file queue of a frame -/

theorem HandleFiles_shape (fname : String) (f : Frame) (st : FType) (lk : Bool)
    (rl : String) (rep : ActivityReport) (sf : Bool) :
    ∃ c s fls, (HandleFiles fname f st lk rl rep sf).1 =
      { f with dir_file_count := c, dir_file_size := s, subfiles := fls } := by
  simp only [HandleFiles]
  repeat' split
  all_goals exact ⟨_, _, _, rfl⟩

theorem scan_fold_shape (opts : Options) (es : List Entry) (f : Frame)
    (rep : ActivityReport) (subs : List SubDirNode) :
    ∃ c s fls, (scan_fold opts es f rep subs).1 =
      { f with dir_file_count := c, dir_file_size := s, subfiles := fls } := by
  induction es generalizing f rep subs with
  | nil => exact ⟨_, _, _, rfl⟩
  | cons e rest ih =>
    simp only [scan_fold]
    split
    · exact ih ..
    split
    · exact ih ..
    split
    · exact ih ..
    split
    · exact ih ..
    obtain ⟨c1, s1, f1, h1⟩ := HandleFiles_shape (f.path ++ "/" ++ e.name) f e.target
      e.isLink e.linkTarget rep opts.show_files
    obtain ⟨c2, s2, f2, h2⟩ := ih ((HandleFiles (f.path ++ "/" ++ e.name) f e.target
      e.isLink e.linkTarget rep opts.show_files).1) ((HandleFiles (f.path ++ "/" ++ e.name) f
      e.target e.isLink e.linkTarget rep opts.show_files).2) (if e.target.isDir ||
        (e.isLink && e.target.isDir) then subs ++ [add_subdir_node
        (e.isLink && e.target.isDir) (f.path ++ "/" ++ e.name) e] else subs)
    exact ⟨c2, s2, f2, by rw [h2, h1]⟩

/-! ### Well-formed states and the universe of identities -/

theorem entries_target_mem_univ (fs : FS) (i : Ident) (e : Entry) (a : Ident)
    (he : e ∈ fs.entries i) (ha : e.target = FType.dir a) : a ∈ fs.univIds := by
  unfold FS.entries at he
  split at he
  case h_2 => simp at he
  case h_1 p hp =>
    have hpm : p ∈ fs.dirs := List.mem_of_find?_eq_some hp
    have : a ∈ p.2.filterMap entryDirTarget := by
      refine List.mem_filterMap.2 ⟨e, he, ?_⟩
      simp [entryDirTarget, ha]
    refine List.mem_append.2 (Or.inr (List.mem_flatten.2 ⟨p.2.filterMap entryDirTarget, ?_, this⟩))
    exact List.mem_map.2 ⟨p, hpm, rfl⟩

theorem entries_length_le (fs : FS) (i : Ident) :
    (fs.entries i).length ≤ entriesBound fs := by
  unfold FS.entries
  split
  case h_2 => simp
  case h_1 p hp =>
    have hpm : p ∈ fs.dirs := List.mem_of_find?_eq_some hp
    have : p.2.length ∈ fs.dirs.map (fun q => q.2.length) := List.mem_map.2 ⟨p, hpm, rfl⟩
    exact List.single_le_sum (fun x _ => Nat.zero_le x) _ this

theorem unvisited_mono (fs : FS) (v : List Ident) (a : Ident) :
    unvisitedCount fs (a :: v) ≤ unvisitedCount fs v := by
  refine List.countP_mono_left (fun i _ h => ?_)
  simp only [decide_eq_true_eq] at *
  exact fun hm => h (List.mem_cons_of_mem a hm)

theorem countP_lt_of_mem {α : Type _} {p q : α → Bool} {l : List α}
    (hpq : ∀ x ∈ l, p x = true → q x = true) {x : α} (hx : x ∈ l)
    (hpx : p x = false) (hqx : q x = true) :
    l.countP p < l.countP q := by
  induction l with
  | nil => cases hx
  | cons b bs ih =>
    rw [List.countP_cons, List.countP_cons]
    rcases List.mem_cons.1 hx with hxb | hxbs
    · have hmono := List.countP_mono_left (l := bs)
        (fun y hy => hpq y (List.mem_cons_of_mem _ hy))
      rw [← hxb, hpx, hqx]
      simp only [Bool.false_eq_true, if_false, if_true]
      omega
    · have hlt := ih (fun y hy => hpq y (List.mem_cons_of_mem _ hy)) hxbs
      have hle : (if p b = true then 1 else 0) ≤ (if q b = true then 1 else 0) := by
        by_cases hb : p b = true
        · rw [if_pos hb, if_pos (hpq b (List.mem_cons_self b bs) hb)]
        · rw [if_neg hb]; omega
      omega

theorem unvisited_lt (fs : FS) (v : List Ident) (a : Ident)
    (hau : a ∈ fs.univIds) (hav : a ∉ v) :
    unvisitedCount fs (a :: v) < unvisitedCount fs v := by
  refine countP_lt_of_mem (fun x _ h => ?_) hau ?_ ?_
  · simp only [decide_eq_true_eq] at *
    exact fun hm => h (List.mem_cons_of_mem a hm)
  · simp
  · simpa using hav

/-! ### Facts about Create_Frame and scan_step -/

theorem Create_Frame_some (fs : FS) (dirPath : String) (dirId : Ident) (dirDepth : Nat)
    (parent : Option Frame) (is_last : Bool) (child : Frame)
    (h : Create_Frame fs dirPath dirId dirDepth parent is_last = some child) :
    child.scanned = false ∧ child.pending = [] ∧ child.depth = dirDepth ∧
      child.id = dirId ∧ child.path = dirPath := by
  unfold Create_Frame at h
  split at h
  · cases h
    exact ⟨rfl, rfl, rfl, rfl, rfl⟩
  · cases h

theorem scan_fold_subs_length (opts : Options) (es : List Entry) :
    ∀ (f : Frame) (rep : ActivityReport) (subs : List SubDirNode),
      (scan_fold opts es f rep subs).2.2.length ≤ subs.length + es.length := by
  induction es with
  | nil => intro f rep subs; simp [scan_fold]
  | cons e rest ih =>
    intro f rep subs
    simp only [scan_fold, List.length_cons]
    split
    · have h := ih f rep subs; omega
    split
    · have h := ih f rep subs; omega
    split
    · have h := ih f rep subs; omega
    split
    · have h := ih f rep subs; omega
    refine le_trans (ih _ _ _) ?_
    split
    · simp only [List.length_append, List.length_cons, List.length_nil]
      omega
    · omega

theorem scan_fold_subs_mem (opts : Options) (es : List Entry) :
    ∀ (f : Frame) (rep : ActivityReport) (subs : List SubDirNode),
      ∀ n ∈ (scan_fold opts es f rep subs).2.2,
        n ∈ subs ∨ ∃ e ∈ es, n.target = e.target ∧ e.target.isDir = true := by
  induction es with
  | nil => intro f rep subs; simp [scan_fold]
  | cons e rest ih =>
    intro f rep subs n hn
    simp only [scan_fold] at hn
    have push : (n ∈ subs ∨ ∃ e' ∈ rest, n.target = e'.target ∧ e'.target.isDir = true) →
        n ∈ subs ∨ ∃ e' ∈ e :: rest, n.target = e'.target ∧ e'.target.isDir = true := by
      rintro (h | ⟨e', he', r⟩)
      · exact Or.inl h
      · exact Or.inr ⟨e', List.mem_cons_of_mem e he', r⟩
    split at hn
    · exact push (ih f rep subs n hn)
    split at hn
    · exact push (ih f rep subs n hn)
    split at hn
    · exact push (ih f rep subs n hn)
    split at hn
    · exact push (ih f rep subs n hn)
    rcases ih _ _ _ n hn with h | ⟨e', he', r⟩
    · split at h
      case isTrue hdir =>
        rcases List.mem_append.1 h with h2 | h2
        · exact Or.inl h2
        · simp only [List.mem_singleton] at h2
          subst h2
          have hd : e.target.isDir = true := by
            revert hdir; cases htgt : e.target.isDir <;> simp
          exact Or.inr ⟨e, List.mem_cons_self e rest, rfl, hd⟩
      case isFalse => exact Or.inl h
    · exact Or.inr ⟨e', List.mem_cons_of_mem e he', r⟩

theorem scan_step_frame (fs : FS) (opts : Options) (frame : Frame) (rep : ActivityReport) :
    (scan_step fs opts frame rep).1.scanned = true ∧
    (scan_step fs opts frame rep).1.depth = frame.depth ∧
    (scan_step fs opts frame rep).1.id = frame.id ∧
    (scan_step fs opts frame rep).1.path = frame.path ∧
    (scan_step fs opts frame rep).1.is_last = frame.is_last ∧
    (scan_step fs opts frame rep).1.pending.length ≤ entriesBound fs ∧
    (∀ n ∈ (scan_step fs opts frame rep).1.pending, SubOK fs n) := by
  obtain ⟨c, s, fls, h⟩ := scan_fold_shape opts (fs.entries frame.id)
    { frame with dir_file_count := 0, dir_file_size := 0 } rep []
  have hlen : (scan_fold opts (fs.entries frame.id)
      { frame with dir_file_count := 0, dir_file_size := 0 } rep []).2.2.length ≤
      entriesBound fs := by
    refine le_trans (scan_fold_subs_length opts (fs.entries frame.id) _ _ _) ?_
    simpa using entries_length_le fs frame.id
  have hok : ∀ n ∈ (scan_fold opts (fs.entries frame.id)
      { frame with dir_file_count := 0, dir_file_size := 0 } rep []).2.2, SubOK fs n := by
    intro n hn
    rcases scan_fold_subs_mem opts (fs.entries frame.id) _ _ _ n hn with h2 | ⟨e, he, htgt, hdir⟩
    · cases h2
    · have hda : ∃ a, e.target = FType.dir a := by
        revert hdir
        cases e.target <;> simp [FType.isDir]
      obtain ⟨a, ha⟩ := hda
      refine ⟨by rw [htgt, ha]; rfl, ?_⟩
      rw [htgt, ha]
      exact entries_target_mem_univ fs frame.id e a he ha
  simp only [scan_step, scan_frame]
  split <;> simp_all [h]

/-! ### Measure bookkeeping helpers -/

theorem advance_frame_depth (opts : Options) (f : Frame) (b : Bool) :
    (advance_frame opts f b).depth = f.depth := by
  unfold advance_frame; split <;> rfl

theorem advance_frame_scanned (opts : Options) (f : Frame) (b : Bool) :
    (advance_frame opts f b).scanned = f.scanned := by
  unfold advance_frame; split <;> rfl

theorem advance_frame_pending (opts : Options) (f : Frame) (b : Bool) :
    (advance_frame opts f b).pending = f.pending := by
  unfold advance_frame; split <;> rfl

theorem advance_frame_id (opts : Options) (f : Frame) (b : Bool) :
    (advance_frame opts f b).id = f.id := by
  unfold advance_frame; split <;> rfl

theorem advance_frame_path (opts : Options) (f : Frame) (b : Bool) :
    (advance_frame opts f b).path = f.path := by
  unfold advance_frame; split <;> rfl

theorem stackWF_cons {fs : FS} {f : Frame} {rest : List Frame}
    (h1 : ∀ n ∈ f.pending, SubOK fs n)
    (h2 : ∀ g ∈ rest, ∀ n ∈ g.pending, SubOK fs n) :
    ∀ g ∈ f :: rest, ∀ n ∈ g.pending, SubOK fs n := by
  intro g hg
  rcases List.mem_cons.1 hg with h | h
  · intro n hn; exact h1 n (h ▸ hn)
  · exact h2 g h

theorem gmeasure_push_le (fs : FS) (child fr1 fr2 : Frame) (rest : List Frame)
    (a : Ident) (v : List Ident) (r1 r2 : ActivityReport) (o1 o2 e1 e2 : List String)
    (hw : frameWeight (entriesBound fs) fr1 = frameWeight (entriesBound fs) fr2)
    (hcs : child.scanned = false) (hau : a ∈ fs.univIds) (hav : a ∉ v) :
    gmeasure fs ⟨child :: fr1 :: rest, a :: v, r1, o1, e1⟩ ≤
      gmeasure fs ⟨fr2 :: rest, v, r2, o2, e2⟩ := by
  have h1 := unvisited_lt fs v a hau hav
  have h2 : (entriesBound fs + 3) * (unvisitedCount fs (a :: v) + 1) ≤
      (entriesBound fs + 3) * unvisitedCount fs v :=
    Nat.mul_le_mul (Nat.le_refl _) h1
  rw [Nat.mul_add, Nat.mul_one] at h2
  have hwc : frameWeight (entriesBound fs) child = entriesBound fs + 2 := by
    simp [frameWeight, hcs]
  simp only [gmeasure, List.map_cons, List.sum_cons, hwc, hw]
  omega

theorem gmeasure_same_le (fs : FS) (fr1 fr2 : Frame) (rest : List Frame)
    (v1 v2 : List Ident) (r1 r2 : ActivityReport) (o1 o2 e1 e2 : List String)
    (hw : frameWeight (entriesBound fs) fr1 = frameWeight (entriesBound fs) fr2)
    (hv : unvisitedCount fs v1 ≤ unvisitedCount fs v2) :
    gmeasure fs ⟨fr1 :: rest, v1, r1, o1, e1⟩ ≤
      gmeasure fs ⟨fr2 :: rest, v2, r2, o2, e2⟩ := by
  have h2 : (entriesBound fs + 3) * unvisitedCount fs v1 ≤
      (entriesBound fs + 3) * unvisitedCount fs v2 :=
    Nat.mul_le_mul (Nat.le_refl _) hv
  simp only [gmeasure, List.map_cons, List.sum_cons, hw]
  omega

/-- Processing one well-formed SubDirNode never increases the measure of the
state whose top frame has already been advanced past the node, and preserves
well-formedness. -/
theorem drain_child_spec (fs : FS) (opts : Options) (f : Frame) (rest : List Frame)
    (cur : SubDirNode) (v : List Ident) (rep : ActivityReport) (out err : List String)
    (hcur : SubOK fs cur)
    (hf : ∀ n ∈ f.pending, SubOK fs n)
    (hrest : ∀ g ∈ rest, ∀ n ∈ g.pending, SubOK fs n) :
    gmeasure fs (drain_child fs opts f rest cur v rep out err) ≤
      gmeasure fs ⟨f :: rest, v, rep, out, err⟩ ∧
    StateWF fs (drain_child fs opts f rest cur v rep out err) := by
  obtain ⟨hdir, huniv⟩ := hcur
  obtain ⟨a, ha⟩ : ∃ a, cur.target = FType.dir a := by
    revert hdir; cases cur.target <;> simp [FType.isDir]
  rw [ha] at huniv
  simp only [FType.ident] at huniv
  have hfw : frameWeight (entriesBound fs) (advance_frame opts f f.pending.isEmpty) =
      frameWeight (entriesBound fs) f := by
    simp [frameWeight, advance_frame_scanned, advance_frame_pending]
  have hfadv : ∀ n ∈ (advance_frame opts f f.pending.isEmpty).pending, SubOK fs n := by
    rw [advance_frame_pending]; exact hf
  simp only [drain_child, ha, FType.statOk, FType.ident, FType.isDir, Bool.true_and,
    Bool.and_true, advance_frame_depth, if_true]
  split
  · -- symlinked directory branch
    split
    · -- push condition holds
      rename_i hcond
      have hnv : visited_before v a = false := by
        cases hvb : visited_before v a
        · rfl
        · rw [hvb] at hcond
          simp at hcond
      have hnotmem : a ∉ v := by simpa [visited_before] using hnv
      split
      · -- Create_Frame succeeded
        rename_i child heq
        obtain ⟨hcs, hcp, _, _, _⟩ := Create_Frame_some _ _ _ _ _ _ _ heq
        simp only [add_visited, if_neg hnotmem]
        refine ⟨gmeasure_push_le fs child _ f rest a v _ rep _ out _ err hfw hcs huniv
          hnotmem, ?_⟩
        exact stackWF_cons (by simp [hcp]) (stackWF_cons hfadv hrest)
      · -- Create_Frame failed
        exact ⟨gmeasure_same_le fs _ f rest v v _ rep _ out _ err hfw (le_refl _),
          stackWF_cons hfadv hrest⟩
    · -- no descent
      exact ⟨gmeasure_same_le fs _ f rest v v _ rep _ out _ err hfw (le_refl _),
        stackWF_cons hfadv hrest⟩
  · -- plain directory branch
    split
    · -- fresh identity and depth not hit
      rename_i hcond
      have hnv : visited_before v a = false := by
        cases hvb : visited_before v a
        · rfl
        · rw [hvb] at hcond
          simp at hcond
      have hnotmem : a ∉ v := by simpa [visited_before] using hnv
      split
      · rename_i child heq
        obtain ⟨hcs, hcp, _, _, _⟩ := Create_Frame_some _ _ _ _ _ _ _ heq
        simp only [add_visited, if_neg hnotmem]
        refine ⟨gmeasure_push_le fs child _ f rest a v _ rep _ out _ err hfw hcs huniv
          hnotmem, ?_⟩
        exact stackWF_cons (by simp [hcp]) (stackWF_cons hfadv hrest)
      · exact ⟨gmeasure_same_le fs _ f rest v v _ rep _ out _ err hfw (le_refl _),
          stackWF_cons hfadv hrest⟩
    · -- already visited or depth limit: register without descending
      have hv2 : unvisitedCount fs (add_visited v a).2 ≤ unvisitedCount fs v := by
        simp only [add_visited]
        split
        · exact le_refl _
        · exact unvisited_mono fs v a
      exact ⟨gmeasure_same_le fs _ f rest (add_visited v a).2 v _ rep _ out _ err hfw hv2,
        stackWF_cons hfadv hrest⟩

theorem gmeasure_pos (fs : FS) (st : MState) (h : st.stack ≠ []) :
    1 ≤ gmeasure fs st := by
  obtain ⟨stack, v, rep, out, err⟩ := st
  cases stack with
  | nil => exact absurd rfl h
  | cons f rest =>
    have : 1 ≤ frameWeight (entriesBound fs) f := by
      unfold frameWeight; split <;> omega
    simp only [gmeasure, List.map_cons, List.sum_cons]
    omega

/-- Phase 2 (drain one child or pop) strictly decreases the measure and
preserves well-formedness, for a scanned well-formed top frame. -/
theorem drain_or_pop_spec (fs : FS) (opts : Options) (f : Frame) (rest : List Frame)
    (v : List Ident) (rep : ActivityReport) (out err : List String)
    (hscan : f.scanned = true)
    (hf : ∀ n ∈ f.pending, SubOK fs n)
    (hrest : ∀ g ∈ rest, ∀ n ∈ g.pending, SubOK fs n) :
    gmeasure fs (drain_or_pop fs opts f rest v rep out err) <
      gmeasure fs ⟨f :: rest, v, rep, out, err⟩ ∧
    StateWF fs (drain_or_pop fs opts f rest v rep out err) := by
  rcases hp : f.pending with _ | ⟨cur, p⟩
  · unfold drain_or_pop
    rw [hp]
    constructor
    · simp only [gmeasure, List.map_cons, List.sum_cons, frameWeight, hscan, hp, if_true]
      simp
    · exact hrest
  · unfold drain_or_pop
    rw [hp]
    have hcur : SubOK fs cur := hf cur (by rw [hp]; exact List.mem_cons_self _ _)
    have hp' : ∀ n ∈ ({ f with pending := p } : Frame).pending, SubOK fs n := by
      intro n hn
      exact hf n (by rw [hp]; exact List.mem_cons_of_mem _ hn)
    have hd := drain_child_spec fs opts { f with pending := p } rest cur v rep out err
      hcur hp' hrest
    refine ⟨lt_of_le_of_lt hd.1 ?_, hd.2⟩
    simp only [gmeasure, List.map_cons, List.sum_cons, frameWeight, hscan, hp, if_true,
      List.length_cons]
    omega

/-- One loop iteration strictly decreases the measure and preserves
well-formedness, for any state with a nonempty stack. -/
theorem step_spec (fs : FS) (opts : Options) (st : MState) (hne : st.stack ≠ [])
    (hwf : StateWF fs st) :
    gmeasure fs (step fs opts st) < gmeasure fs st ∧ StateWF fs (step fs opts st) := by
  obtain ⟨stack, v, rep, out, err⟩ := st
  cases stack with
  | nil => exact absurd rfl hne
  | cons f rest =>
    have hfp : ∀ n ∈ f.pending, SubOK fs n := hwf f (List.mem_cons_self _ _)
    have hrest : ∀ g ∈ rest, ∀ n ∈ g.pending, SubOK fs n :=
      fun g hg => hwf g (List.mem_cons_of_mem _ hg)
    simp only [step]
    by_cases hs : f.scanned = true
    · rw [if_pos hs]
      exact drain_or_pop_spec fs opts f rest v rep out err hs hfp hrest
    · rw [if_neg hs]
      have hsf := scan_step_frame fs opts f rep
      obtain ⟨h1, h2, h3, h4, h5, h6, h7⟩ := hsf
      have hdd := drain_or_pop_spec fs opts (scan_step fs opts f rep).1 rest v
        (scan_step fs opts f rep).2.1 (out ++ (scan_step fs opts f rep).2.2) err h1 h7 hrest
      refine ⟨lt_of_lt_of_le hdd.1 ?_, hdd.2⟩
      have hw : frameWeight (entriesBound fs) (scan_step fs opts f rep).1 ≤
          frameWeight (entriesBound fs) f := by
        have hfs : f.scanned = false := by
          cases hc : f.scanned
          · rfl
          · exact absurd hc hs
        simp only [frameWeight, h1, hfs, if_true, Bool.false_eq_true, if_false]
        omega
      simp only [gmeasure, List.map_cons, List.sum_cons]
      omega

/-- The traversal loop of the current version reaches the empty stack from any
well-formed state, given fuel at least the state's measure. -/
theorem runWith_step_total (fs : FS) (opts : Options) :
    ∀ (fuel : Nat) (st : MState), StateWF fs st → gmeasure fs st ≤ fuel →
      (runWith (step fs opts) fuel st).isSome = true := by
  intro fuel
  induction fuel with
  | zero =>
    intro st hwf hm
    unfold runWith
    cases he : st.stack.isEmpty
    · have : st.stack ≠ [] := by
        intro hnil
        rw [hnil] at he
        simp at he
      have := gmeasure_pos fs st this
      omega
    · simp
  | succ n ih =>
    intro st hwf hm
    unfold runWith
    cases he : st.stack.isEmpty
    · have hne : st.stack ≠ [] := by
        intro hnil
        rw [hnil] at he
        simp at he
      have hss := step_spec fs opts st hne hwf
      simp only [Bool.false_eq_true, if_false]
      exact ih (step fs opts st) hss.2 (by omega)
    · simp

theorem Create_Frame_root (fs : FS) (rootPath : String) (rootId : Ident)
    (h : fs.openable rootId = true) :
    Create_Frame fs rootPath rootId 0 none false = some (root_frame rootPath rootId) := by
  unfold Create_Frame root_frame
  rw [if_pos h]

/-- The current main never runs out of fuel: for every filesystem model with
an openable root, the traversal terminates and a result is produced. -/
theorem gtree_main_total (fs : FS) (opts : Options) (rootPath : String)
    (rootId : Ident) (rootStatOk : Bool) (h : fs.openable rootId = true) :
    (gtree_main fs opts rootPath rootId rootStatOk).isSome = true := by
  unfold gtree_main
  rw [if_neg (by simp [h]), Create_Frame_root fs rootPath rootId h]
  have hwf0 : StateWF fs (init_state (root_frame rootPath rootId) rootId rootStatOk) := by
    intro g hg n hn
    simp only [init_state, List.mem_singleton] at hg
    rw [hg] at hn
    simp [root_frame] at hn
  have hrun := runWith_step_total fs opts
    (gmeasure fs (init_state (root_frame rootPath rootId) rootId rootStatOk) + 1)
    (init_state (root_frame rootPath rootId) rootId rootStatOk) hwf0 (by omega)
  obtain ⟨st', hst'⟩ := Option.isSome_iff_exists.mp hrun
  simp only [hst']
  rfl

/-! ### Stack shape: depths descend 0 .. top along the stack, and stay below
the configured maximum -/

theorem drain_child_stack_shape (fs : FS) (opts : Options) (f : Frame) (rest : List Frame)
    (cur : SubDirNode) (v : List Ident) (rep : ActivityReport) (out err : List String) :
    (drain_child fs opts f rest cur v rep out err).stack =
        advance_frame opts f f.pending.isEmpty :: rest ∨
    ∃ child, (drain_child fs opts f rest cur v rep out err).stack =
        child :: advance_frame opts f f.pending.isEmpty :: rest ∧
      child.depth = f.depth + 1 ∧ child.scanned = false ∧ child.pending = [] ∧
      f.depth + 1 < opts.max_depth := by
  simp only [drain_child]
  split
  · split
    · rename_i hcond
      split
      · rename_i child heq
        obtain ⟨hcs, hcp, hcd, _, _⟩ := Create_Frame_some _ _ _ _ _ _ _ heq
        refine Or.inr ⟨child, rfl, ?_, hcs, hcp, ?_⟩
        · rw [hcd, advance_frame_depth]
        · have hdl := ((Bool.and_eq_true _ _).mp hcond).2
          simp only [Bool.not_eq_true', decide_eq_false_iff_not, advance_frame_depth] at hdl
          omega
      · exact Or.inl rfl
    · exact Or.inl rfl
  · split
    · split
      · rename_i hcond
        split
        · rename_i child heq
          obtain ⟨hcs, hcp, hcd, _, _⟩ := Create_Frame_some _ _ _ _ _ _ _ heq
          refine Or.inr ⟨child, rfl, ?_, hcs, hcp, ?_⟩
          · rw [hcd, advance_frame_depth]
          · have hdl := ((Bool.and_eq_true _ _).mp hcond).2
            simp only [Bool.not_eq_true', decide_eq_false_iff_not, advance_frame_depth] at hdl
            omega
        · exact Or.inl rfl
      · exact Or.inl rfl
    · exact Or.inl rfl

theorem drain_or_pop_stack_shape (fs : FS) (opts : Options) (fr : Frame)
    (rest : List Frame) (v : List Ident) (rep : ActivityReport) (out err : List String) :
    (drain_or_pop fs opts fr rest v rep out err).stack = rest ∨
    (∃ fr2, (drain_or_pop fs opts fr rest v rep out err).stack = fr2 :: rest ∧
      fr2.depth = fr.depth) ∨
    (∃ child fr2, (drain_or_pop fs opts fr rest v rep out err).stack =
        child :: fr2 :: rest ∧ fr2.depth = fr.depth ∧ child.depth = fr.depth + 1 ∧
      fr.depth + 1 < opts.max_depth) := by
  unfold drain_or_pop
  split
  · exact Or.inl rfl
  · rename_i cur p hp
    rcases drain_child_stack_shape fs opts { fr with pending := p } rest cur v rep out err
      with h | ⟨child, hst, hcd, _, _, hlt⟩
    · refine Or.inr (Or.inl ⟨_, h, ?_⟩)
      rw [advance_frame_depth]
    · refine Or.inr (Or.inr ⟨child, _, hst, ?_, ?_, ?_⟩)
      · rw [advance_frame_depth]
      · simpa using hcd
      · simpa using hlt

theorem step_stack_shape (fs : FS) (opts : Options) (st : MState) (f : Frame)
    (rest : List Frame) (hst : st.stack = f :: rest) :
    (step fs opts st).stack = rest ∨
    (∃ fr2, (step fs opts st).stack = fr2 :: rest ∧ fr2.depth = f.depth) ∨
    (∃ child fr2, (step fs opts st).stack = child :: fr2 :: rest ∧
      fr2.depth = f.depth ∧ child.depth = f.depth + 1 ∧ f.depth + 1 < opts.max_depth) := by
  obtain ⟨stack, v, rep, out, err⟩ := st
  simp only at hst
  subst hst
  simp only [step]
  split
  · exact drain_or_pop_stack_shape fs opts f rest v rep out err
  · have hd := (scan_step_frame fs opts f rep).2.1
    rcases drain_or_pop_stack_shape fs opts (scan_step fs opts f rep).1 rest v
      (scan_step fs opts f rep).2.1 (out ++ (scan_step fs opts f rep).2.2) err
      with h | ⟨fr2, h1, h2⟩ | ⟨c, fr2, h1, h2, h3, h4⟩
    · exact Or.inl h
    · exact Or.inr (Or.inl ⟨fr2, h1, by rw [h2, hd]⟩)
    · exact Or.inr (Or.inr ⟨c, fr2, h1, by rw [h2, hd], by rw [h3, hd], by rw [← hd]; exact h4⟩)

theorem step_DepthsOK (fs : FS) (opts : Options) (st : MState)
    (h : DepthsOK opts.max_depth st) : DepthsOK opts.max_depth (step fs opts st) := by
  cases hst : st.stack with
  | nil =>
    have hid : step fs opts st = st := by
      obtain ⟨stack, v, rep, out, err⟩ := st
      simp only at hst
      subst hst
      rfl
    rw [hid]
    exact h
  | cons f rest =>
    obtain ⟨hbd, hsh⟩ := h
    rw [hst] at hbd hsh
    simp only [List.map_cons, List.length_cons, countdown] at hsh
    have hfd : f.depth = rest.length := (List.cons.injEq _ _ _ _).mp hsh |>.1
    have hrest : rest.map (fun g => g.depth) = countdown rest.length :=
      (List.cons.injEq _ _ _ _).mp hsh |>.2
    rcases step_stack_shape fs opts st f rest hst with h1 | ⟨fr2, h1, h2⟩ |
      ⟨c, fr2, h1, h2, h3, h4⟩
    · constructor
      · intro g hg
        exact hbd g (h1 ▸ hg |> List.mem_cons_of_mem f)
      · rw [h1, hrest]
    · constructor
      · intro g hg
        rw [h1] at hg
        rcases List.mem_cons.1 hg with hgf | hgr
        · rw [hgf, h2]
          exact hbd f (List.mem_cons_self _ _)
        · exact hbd g (List.mem_cons_of_mem f hgr)
      · rw [h1]
        simp only [List.map_cons, List.length_cons, countdown]
        rw [h2, hfd, hrest]
    · constructor
      · intro g hg
        rw [h1] at hg
        rcases List.mem_cons.1 hg with hgc | hg2
        · rw [hgc, h3]
          exact h4
        · rcases List.mem_cons.1 hg2 with hgf | hgr
          · rw [hgf, h2]
            exact hbd f (List.mem_cons_self _ _)
          · exact hbd g (List.mem_cons_of_mem f hgr)
      · rw [h1]
        simp only [List.map_cons, List.length_cons, countdown]
        rw [h2, h3, hfd, hrest]

theorem stepN_DepthsOK (fs : FS) (opts : Options) :
    ∀ (n : Nat) (st : MState), DepthsOK opts.max_depth st →
      DepthsOK opts.max_depth (stepN (step fs opts) n st) := by
  intro n
  induction n with
  | zero => intro st h; exact h
  | succ m ih =>
    intro st h
    exact ih (step fs opts st) (step_DepthsOK fs opts st h)

theorem DepthsOK_length (D : Nat) (st : MState) (h : DepthsOK D st) :
    st.stack.length ≤ D := by
  obtain ⟨hbd, hsh⟩ := h
  cases hst : st.stack with
  | nil => simp
  | cons f rest =>
    rw [hst] at hbd hsh
    simp only [List.map_cons, List.length_cons, countdown] at hsh
    have hfd : f.depth = rest.length := (List.cons.injEq _ _ _ _).mp hsh |>.1
    have := hbd f (List.mem_cons_self _ _)
    simp only [List.length_cons]
    omega

/-! ### File/size aggregation: each classification step moves the local and
global counters in lockstep -/

theorem track_max_depth_files (r : ActivityReport) (d : Nat) :
    (track_max_depth r d).TOTAL_file_count = r.TOTAL_file_count ∧
    (track_max_depth r d).TOTAL_file_size = r.TOTAL_file_size := by
  unfold track_max_depth
  split <;> exact ⟨rfl, rfl⟩

theorem track_max_depth_depth (r : ActivityReport) (d : Nat) :
    (track_max_depth r d).TOTAL_depth = max r.TOTAL_depth d := by
  unfold track_max_depth
  split
  · rename_i h
    show d = max r.TOTAL_depth d
    exact (Nat.max_eq_right (Nat.le_of_lt h)).symm
  · rename_i h
    show r.TOTAL_depth = max r.TOTAL_depth d
    exact (Nat.max_eq_left (Nat.not_lt.mp h)).symm

theorem HandleFiles_counts (fname : String) (f : Frame) (st : FType) (lk : Bool)
    (rl : String) (rep : ActivityReport) (sf : Bool) :
    ∃ d e : Nat,
      (HandleFiles fname f st lk rl rep sf).1.dir_file_count = f.dir_file_count + d ∧
      (HandleFiles fname f st lk rl rep sf).2.TOTAL_file_count = rep.TOTAL_file_count + d ∧
      (HandleFiles fname f st lk rl rep sf).1.dir_file_size = f.dir_file_size + e ∧
      (HandleFiles fname f st lk rl rep sf).2.TOTAL_file_size = rep.TOTAL_file_size + e := by
  simp only [HandleFiles]
  repeat' split
  all_goals first
    | exact ⟨1, st.size, rfl, rfl, rfl, rfl⟩
    | exact ⟨1, 0, rfl, rfl, by simp, by simp⟩
    | exact ⟨0, 0, by simp, by simp, by simp, by simp⟩

theorem scan_fold_counts (opts : Options) (es : List Entry) :
    ∀ (f : Frame) (rep : ActivityReport) (subs : List SubDirNode),
      (scan_fold opts es f rep subs).1.dir_file_count + rep.TOTAL_file_count =
        f.dir_file_count + (scan_fold opts es f rep subs).2.1.TOTAL_file_count ∧
      (scan_fold opts es f rep subs).1.dir_file_size + rep.TOTAL_file_size =
        f.dir_file_size + (scan_fold opts es f rep subs).2.1.TOTAL_file_size := by
  induction es with
  | nil => intro f rep subs; simp [scan_fold]
  | cons e rest ih =>
    intro f rep subs
    simp only [scan_fold]
    split
    · exact ih f rep subs
    split
    · exact ih f rep subs
    split
    · exact ih f rep subs
    split
    · exact ih f rep subs
    obtain ⟨d, e2, h1, h2, h3, h4⟩ := HandleFiles_counts (f.path ++ "/" ++ e.name) f e.target
      e.isLink e.linkTarget rep opts.show_files
    have hih := ih (HandleFiles (f.path ++ "/" ++ e.name) f e.target e.isLink e.linkTarget rep
        opts.show_files).1
      (HandleFiles (f.path ++ "/" ++ e.name) f e.target e.isLink e.linkTarget rep
        opts.show_files).2
      (if e.target.isDir || (e.isLink && e.target.isDir) then
        subs ++ [add_subdir_node (e.isLink && e.target.isDir) (f.path ++ "/" ++ e.name) e]
       else subs)
    constructor
    · have := hih.1; omega
    · have := hih.2; omega

theorem drain_child_files (fs : FS) (opts : Options) (f : Frame) (rest : List Frame)
    (cur : SubDirNode) (v : List Ident) (rep : ActivityReport) (out err : List String) :
    (drain_child fs opts f rest cur v rep out err).report.TOTAL_file_count =
      rep.TOTAL_file_count ∧
    (drain_child fs opts f rest cur v rep out err).report.TOTAL_file_size =
      rep.TOTAL_file_size := by
  simp only [drain_child]
  repeat' split
  all_goals refine ⟨?_, ?_⟩
  all_goals first
    | rfl
    | exact ((track_max_depth_files _ _).1.trans rfl)
    | exact ((track_max_depth_files _ _).2.trans rfl)

theorem drain_or_pop_files (fs : FS) (opts : Options) (fr : Frame) (rest : List Frame)
    (v : List Ident) (rep : ActivityReport) (out err : List String) :
    (drain_or_pop fs opts fr rest v rep out err).report.TOTAL_file_count =
      rep.TOTAL_file_count ∧
    (drain_or_pop fs opts fr rest v rep out err).report.TOTAL_file_size =
      rep.TOTAL_file_size := by
  unfold drain_or_pop
  split
  · exact ⟨rfl, rfl⟩
  · exact drain_child_files fs opts _ rest _ v rep out err

theorem step_files_delta (fs : FS) (opts : Options) (st : MState) (f : Frame)
    (rest : List Frame) (hst : st.stack = f :: rest) :
    (step fs opts st).report.TOTAL_file_count = st.report.TOTAL_file_count +
      (if f.scanned then 0 else
        (scan_fold opts (fs.entries f.id)
          { f with dir_file_count := 0, dir_file_size := 0 } st.report []).1.dir_file_count) ∧
    (step fs opts st).report.TOTAL_file_size = st.report.TOTAL_file_size +
      (if f.scanned then 0 else
        (scan_fold opts (fs.entries f.id)
          { f with dir_file_count := 0, dir_file_size := 0 } st.report []).1.dir_file_size) := by
  obtain ⟨stack, v, rep, out, err⟩ := st
  simp only at hst
  subst hst
  simp only [step]
  by_cases hs : f.scanned = true
  · rw [if_pos hs, if_pos hs, if_pos hs]
    simpa using drain_or_pop_files fs opts f rest v rep out err
  · rw [if_neg hs, if_neg hs, if_neg hs]
    have hdp := drain_or_pop_files fs opts (scan_step fs opts f rep).1 rest v
      (scan_step fs opts f rep).2.1 (out ++ (scan_step fs opts f rep).2.2) err
    have hsc := scan_fold_counts opts (fs.entries f.id)
      { f with dir_file_count := 0, dir_file_size := 0 } rep []
    have h1 : (scan_step fs opts f rep).2.1 = (scan_fold opts (fs.entries f.id)
        { f with dir_file_count := 0, dir_file_size := 0 } rep []).2.1 := rfl
    simp only at hdp hsc
    constructor
    · rw [hdp.1, h1]
      have := hsc.1; simp at this; omega
    · rw [hdp.2, h1]
      have := hsc.2; simp at this; omega

theorem stepN_files (fs : FS) (opts : Options) :
    ∀ (n : Nat) (st : MState),
      (stepN (step fs opts) n st).report.TOTAL_file_count =
        st.report.TOTAL_file_count + scanTraceCount fs opts n st ∧
      (stepN (step fs opts) n st).report.TOTAL_file_size =
        st.report.TOTAL_file_size + scanTraceSize fs opts n st := by
  intro n
  induction n with
  | zero => intro st; simp [stepN, scanTraceCount, scanTraceSize]
  | succ m ih =>
    intro st
    rcases hst : st.stack with _ | ⟨f, rest⟩
    · have hid : step fs opts st = st := by
        obtain ⟨stack, v, rep, out, err⟩ := st
        simp only at hst
        subst hst
        rfl
      have htc : ∀ k, scanTraceCount fs opts k st = 0 := by
        intro k
        cases k with
        | zero => rfl
        | succ j => simp only [scanTraceCount, hst]
      have hts : ∀ k, scanTraceSize fs opts k st = 0 := by
        intro k
        cases k with
        | zero => rfl
        | succ j => simp only [scanTraceSize, hst]
      have hih := ih st
      rw [htc m, hts m] at hih
      simp only [stepN, hid, htc (m + 1), hts (m + 1)]
      exact hih
    · obtain ⟨hd1, hd2⟩ := step_files_delta fs opts st f rest hst
      obtain ⟨hi1, hi2⟩ := ih (step fs opts st)
      simp only [stepN, scanTraceCount, scanTraceSize, hst]
      by_cases hs : f.scanned = true
      · rw [if_pos hs] at hd1 hd2
        rw [if_pos hs, if_pos hs]
        exact ⟨by omega, by omega⟩
      · rw [if_neg hs] at hd1 hd2
        rw [if_neg hs, if_neg hs]
        exact ⟨by omega, by omega⟩

/-! ### File display queue: contents and order -/

theorem hfQueue_reverse (fname : String) (st : FType) (lk : Bool) (rl : String) :
    (hfQueue fname st lk rl).reverse = hfQueue fname st lk rl := by
  unfold hfQueue
  repeat' split
  all_goals rfl

theorem HandleFiles_subfiles (fname : String) (f : Frame) (st : FType) (lk : Bool)
    (rl : String) (rep : ActivityReport) :
    (HandleFiles fname f st lk rl rep true).1.subfiles =
      hfQueue fname st lk rl ++ f.subfiles := by
  simp only [HandleFiles, hfQueue, add_subfile, if_true]
  repeat' split
  all_goals simp_all

theorem scan_fold_subfiles (opts : Options) (hsf : opts.show_files = true)
    (es : List Entry) :
    ∀ (f : Frame) (rep : ActivityReport) (subs : List SubDirNode),
      (scan_fold opts es f rep subs).1.subfiles =
        (enumQueue opts f.path es).reverse ++ f.subfiles := by
  induction es with
  | nil => intro f rep subs; simp [scan_fold, enumQueue]
  | cons e rest ih =>
    intro f rep subs
    simp only [scan_fold, enumQueue]
    split
    · rw [ih f rep subs]
    split
    · rw [ih f rep subs]
    split
    · rw [ih f rep subs]
    split
    · rw [ih f rep subs]
    rw [hsf]
    have hH := HandleFiles_subfiles (f.path ++ "/" ++ e.name) f e.target e.isLink
      e.linkTarget rep
    obtain ⟨c, s, fls, hsh⟩ := HandleFiles_shape (f.path ++ "/" ++ e.name) f e.target
      e.isLink e.linkTarget rep true
    rw [ih _ _ _]
    rw [hsh]
    simp only []
    rw [hsh] at hH
    simp only [] at hH
    rw [hH, List.reverse_append, hfQueue_reverse, List.append_assoc]

theorem drain_child_stdout (fs : FS) (opts : Options) (f : Frame) (rest : List Frame)
    (cur : SubDirNode) (v : List Ident) (rep : ActivityReport) (out err : List String) :
    ∃ tail, (drain_child fs opts f rest cur v rep out err).stdout = out ++ tail := by
  simp only [drain_child]
  repeat' split
  all_goals first
    | exact ⟨[], (List.append_nil out).symm⟩
    | exact ⟨_, rfl⟩

theorem drain_or_pop_stdout (fs : FS) (opts : Options) (fr : Frame) (rest : List Frame)
    (v : List Ident) (rep : ActivityReport) (out err : List String) :
    ∃ tail, (drain_or_pop fs opts fr rest v rep out err).stdout = out ++ tail := by
  unfold drain_or_pop
  split
  · exact ⟨[], (List.append_nil out).symm⟩
  · exact drain_child_stdout fs opts _ rest _ v rep out err

/-- C2 (amended): whenever file listing is requested, on the iteration that
scans a directory the step's stdout extension starts with the directory's own
line, immediately followed by the queued file display lines — printed in the
stored (reverse-of-queueing) order, which equals the REVERSE of the original
filesystem enumeration order — and only after them whatever Phase 2 prints
for the first child directory. -/
theorem scan_output_order (fs : FS) (opts : Options) (st : MState) (f : Frame)
    (rest : List Frame) (hsf : opts.show_files = true) (hst : st.stack = f :: rest)
    (hscan : f.scanned = false) (hsub : f.subfiles = []) :
    (scan_frame fs opts f st.report).subfiles =
      (enumQueue opts f.path (fs.entries f.id)).reverse ∧
    ∃ tail, (step fs opts st).stdout = st.stdout ++
      (print_entry_line (some (scan_frame fs opts f st.report))
          (scan_frame fs opts f st.report).is_last false "" false opts.show_file_stats ""
          true opts.colour_files
        :: (((enumQueue opts f.path (fs.entries f.id)).map (fun sf =>
              print_entry_line (some (scan_frame fs opts f st.report))
                (scan_frame fs opts f st.report).is_last sf.is_symlink "" false
                opts.show_file_stats sf.name false opts.colour_files)).reverse
        ++ tail)) := by
  have h1 : (scan_frame fs opts f st.report).subfiles =
      (enumQueue opts f.path (fs.entries f.id)).reverse := by
    unfold scan_frame
    simp only []
    rw [scan_fold_subfiles opts hsf]
    simp [hsub]
  refine ⟨h1, ?_⟩
  obtain ⟨stack, v, rep, out, err⟩ := st
  simp only at hst h1
  subst hst
  simp only [step, hscan, Bool.false_eq_true, if_false]
  obtain ⟨tail, htail⟩ := drain_or_pop_stdout fs opts (scan_step fs opts f rep).1 rest v
    (scan_step fs opts f rep).2.1 (out ++ (scan_step fs opts f rep).2.2) err
  refine ⟨tail, ?_⟩
  rw [htail]
  have houts : (scan_step fs opts f rep).2.2 =
      print_entry_line (some (scan_frame fs opts f rep))
          (scan_frame fs opts f rep).is_last false "" false opts.show_file_stats ""
          true opts.colour_files
        :: ((enumQueue opts f.path (fs.entries f.id)).map (fun sf =>
              print_entry_line (some (scan_frame fs opts f rep))
                (scan_frame fs opts f rep).is_last sf.is_symlink "" false
                opts.show_file_stats sf.name false opts.colour_files)).reverse := by
    show phase1_prints opts (scan_frame fs opts f rep) = _
    unfold phase1_prints
    rw [hsf, if_pos rfl, h1, List.map_reverse]
  rw [houts, List.append_assoc, List.cons_append]

/-! ### Claim theorems -/

/-- C1: the claim states that for the section 8 scenario (root R with file
f.txt and subdirectory A holding a symlink loop back to R, follow-links on,
default depth) the summary reports 2 directories traversed, the total
equalling the number of distinct directory identities entered counting the
root.  Evaluating the embedded current main at that input: two distinct
directories are entered and scanned (R then A), yet the reported
TOTAL_directories is 1 — the current main registers the root's identity
without ever counting it (the remaining summary fields match the spec: 1
linked directory, 1 file, 10 bytes, rendered 10B). -/
theorem C1_section8_eval :
    scanned_ids (step section8FS section8Opts) 10 section8Init = [(1, 1), (1, 2)] ∧
    (gtree_main section8FS section8Opts "R" (1, 1) true).map
        (fun r => r.report.TOTAL_directories) = some 1 ∧
    (gtree_main section8FS section8Opts "R" (1, 1) true).map
        (fun r => (r.report.TOTAL_linked_directories, r.report.TOTAL_file_count,
          r.report.TOTAL_file_size)) = some (1, 1, 10) ∧
    human_size 10 = "10B" := by
  refine ⟨by decide, by decide, by decide, by decide⟩

/-- C2 counterexample: in a directory whose entries are enumerated a.txt then
b.txt, with file listing requested, the printed file lines come out b.txt
first — the reverse of the filesystem enumeration order — refuting the claim
that the printed order equals the enumeration order (the enumeration-ordered
queue is a.txt then b.txt). -/
theorem C2_print_order_counterexample :
    (gtree_main twoFilesFS twoFilesOpts "R" (1, 1) true).map (fun r => r.stdout) =
      some ["R", ": b.txt (2B)", ": a.txt (1B)"] ∧
    enumQueue twoFilesOpts "R" (twoFilesFS.entries (1, 1)) =
      [⟨"a.txt (1B)", false⟩, ⟨"b.txt (2B)", false⟩] ∧
    (gtree_main twoFilesFS twoFilesOpts "R" (1, 1) true).map (fun r => r.stdout) ≠
      some ["R", ": a.txt (1B)", ": b.txt (2B)"] := by
  refine ⟨by decide, by decide, by decide⟩

/-- C5: the legacy and current traversal variants are not equivalent.  On the
chain model with depth bound 2 the current version refuses to push the
symlinked-directory frame at depth 2 and records the attempted depth 2, while
the legacy version pushes symlinked-directory frames regardless of depth and
descends to depth 3: they differ in the directories entered (frames pushed)
and in the reported maximum depth.  -/
theorem C5_legacy_current_divergence :
    scanned_ids (step chainFS chainOpts) 20 chainInit = [(1, 1), (1, 2)] ∧
    scanned_ids (legacy_step chainFS chainOpts) 20 chainLegacyInit =
      [(1, 1), (1, 2), (1, 3), (1, 4)] ∧
    (gtree_main chainFS chainOpts "R" (1, 1) true).map
        (fun r => (r.report.TOTAL_depth, r.report.TOTAL_directories)) = some (2, 1) ∧
    (legacy_main chainFS chainOpts "R" (1, 1) true).map
        (fun r => (r.report.TOTAL_depth, r.report.TOTAL_directories)) = some (3, 4) := by
  refine ⟨by decide, by decide, by decide, by decide⟩

theorem print_entry_line_symdir_recursive (tmp : Frame) (il : Bool) (sym : String)
    (stats col : Bool) (hd : 0 < tmp.depth) :
    ∃ pre, print_entry_line (some tmp) il true sym true stats "" true col =
      pre ++ ("@" ++ dir_name_of tmp.path tmp.depth ++ " -> " ++ sym ++ " [recursive]") := by
  refine ⟨tree_prefix_str tmp ++ ((if il then "└" else "├") ++ "── "), ?_⟩
  simp only [print_entry_line, print_directory_content, Option.map_some', Option.getD_some,
    Bool.not_true, Bool.false_eq_true, if_false, if_true, hd, if_pos]

/-- C3: when the next queued child of the (scanned) top frame is a symlink to
a directory lying on the current descent path — whose identities are all
registered in the visited set — the iteration renders that entry exactly once
with the recursion marker, pushes no frame and registers nothing; and the main
traversal loop always terminates (the fuelled runner returns a result for
every input with an openable root). -/
theorem C3_symlink_ancestor_recursion (fs : FS) (opts : Options) (st : MState)
    (f : Frame) (rest : List Frame) (cur : SubDirNode) (p : List SubDirNode) (a : Ident)
    (hst : st.stack = f :: rest)
    (hscan : f.scanned = true)
    (hpend : f.pending = cur :: p)
    (hsym : cur.is_symlink = true)
    (htgt : cur.target = FType.dir a)
    (hanc : a ∈ (f :: rest).map (fun g => g.id))
    (hvis : ∀ g ∈ st.stack, g.id ∈ st.visited) :
    (∃ pre, (step fs opts st).stdout = st.stdout ++
      [pre ++ ("@" ++ dir_name_of cur.path (f.depth + 1) ++ " -> " ++ cur.sym_path ++
        " [recursive]")]) ∧
    (step fs opts st).stack.map (fun g => g.id) = st.stack.map (fun g => g.id) ∧
    (step fs opts st).stack.length = st.stack.length ∧
    (step fs opts st).visited = st.visited ∧
    (∀ (rootPath : String) (rootId : Ident) (rStat : Bool),
      fs.openable rootId = true →
      (gtree_main fs opts rootPath rootId rStat).isSome = true) := by
  obtain ⟨stack, v, rep, out, err⟩ := st
  simp only at hst hvis
  subst hst
  have hav : a ∈ v := by
    rcases List.mem_map.1 hanc with ⟨g, hg, hgid⟩
    have := hvis g hg
    rw [hgid] at this
    exact this
  simp only [step, hscan, if_true]
  unfold drain_or_pop
  rw [hpend]
  simp only [drain_child, hsym, htgt, FType.statOk, FType.ident, Bool.true_and, if_true]
  have hvb : visited_before v a = true := by simpa [visited_before] using hav
  rw [hvb]
  simp only [Bool.not_true, Bool.false_and, Bool.false_eq_true, if_false]
  have hline := print_entry_line_symdir_recursive
    (temp_frame cur.path ((advance_frame opts { f with pending := p } p.isEmpty).depth + 1)
      (advance_frame opts { f with pending := p } p.isEmpty).ancestor_siblings)
    p.isEmpty cur.sym_path opts.show_file_stats opts.colour_files (by simp [temp_frame])
  obtain ⟨pre, hpre⟩ := hline
  refine ⟨⟨pre, ?_⟩, ?_, ?_, ?_, ?_⟩
  · rw [hpre]
    simp [temp_frame, advance_frame_depth]
  · simp [advance_frame_id]
  · simp
  · trivial
  · intro rootPath rootId rStat hopen
    exact gtree_main_total fs opts rootPath rootId rStat hopen

/-- C4: with the configured maximum depth D clamped to 2 ≤ D ≤ 1024, every
frame on the stack of every reachable state of the traversal sits at depth
strictly below D, the live stack height never exceeds D, and in particular it
stays below the MAX_DEPTH + 2 slots of the fixed stack array, whatever the
filesystem (symlink trickery included). -/
theorem C4_depth_bound (fs : FS) (opts : Options) (rootPath : String) (rootId : Ident)
    (rootStatOk : Bool) (n : Nat)
    (h2 : 2 ≤ opts.max_depth) (h1024 : opts.max_depth ≤ 1024) :
    (∀ g ∈ (stepN (step fs opts) n
        (init_state (root_frame rootPath rootId) rootId rootStatOk)).stack,
      g.depth < opts.max_depth) ∧
    (stepN (step fs opts) n
        (init_state (root_frame rootPath rootId) rootId rootStatOk)).stack.length ≤
      opts.max_depth ∧
    (stepN (step fs opts) n
        (init_state (root_frame rootPath rootId) rootId rootStatOk)).stack.length <
      MAX_DEPTH + 2 := by
  have h0 : DepthsOK opts.max_depth
      (init_state (root_frame rootPath rootId) rootId rootStatOk) := by
    constructor
    · intro g hg
      simp only [init_state, List.mem_singleton] at hg
      rw [hg]
      show 0 < opts.max_depth
      omega
    · rfl
  have hN := stepN_DepthsOK fs opts n _ h0
  have hL := DepthsOK_length _ _ hN
  refine ⟨hN.1, hL, ?_⟩
  unfold MAX_DEPTH
  omega

/-- C4 witness: the depth bound holds concretely after 3 iterations on the
section 8 model with the clamped depth bound parse_depth 3 1024 = 3. -/
theorem C4_depth_bound_witness :
    2 ≤ (⟨false, false, true, false, false, false, parse_depth 3 1024⟩ : Options).max_depth ∧
    (⟨false, false, true, false, false, false, parse_depth 3 1024⟩ : Options).max_depth ≤ 1024 ∧
    ((∀ g ∈ (stepN (step section8FS ⟨false, false, true, false, false, false,
          parse_depth 3 1024⟩) 3
        (init_state (root_frame "R" (1, 1)) (1, 1) true)).stack,
      g.depth < (⟨false, false, true, false, false, false,
        parse_depth 3 1024⟩ : Options).max_depth) ∧
    (stepN (step section8FS ⟨false, false, true, false, false, false, parse_depth 3 1024⟩) 3
        (init_state (root_frame "R" (1, 1)) (1, 1) true)).stack.length ≤
      (⟨false, false, true, false, false, false, parse_depth 3 1024⟩ : Options).max_depth ∧
    (stepN (step section8FS ⟨false, false, true, false, false, false, parse_depth 3 1024⟩) 3
        (init_state (root_frame "R" (1, 1)) (1, 1) true)).stack.length <
      MAX_DEPTH + 2) :=
  ⟨by decide, by decide,
    C4_depth_bound section8FS ⟨false, false, true, false, false, false, parse_depth 3 1024⟩
      "R" (1, 1) true 3 (by decide) (by decide)⟩

/-- C6: the Identity Set contract — add_visited returns true exactly when the
identity was not yet present, inserting it, and returns false leaving the set
unchanged when it was; visited_before is a pure membership lookup; and the
root directory identity is registered in the initial state, before the main
traversal loop begins (given the root stat succeeded). -/
theorem C6_visited_set_contract :
    (∀ (v : List Ident) (i : Ident),
      ((add_visited v i).1 = true ↔ i ∉ v) ∧
      (i ∉ v → (add_visited v i).2 = i :: v) ∧
      (i ∈ v → (add_visited v i).2 = v) ∧
      (∀ j : Ident, j ∈ (add_visited v i).2 ↔ (j = i ∨ j ∈ v)) ∧
      (visited_before v i = true ↔ i ∈ v)) ∧
    ∀ (root : Frame) (rootId : Ident),
      rootId ∈ (init_state root rootId true).visited ∧
      visited_before (init_state root rootId true).visited rootId = true := by
  constructor
  · intro v i
    refine ⟨?_, ?_, ?_, ?_, ?_⟩
    · unfold add_visited
      split <;> simp_all
    · intro h
      unfold add_visited
      rw [if_neg h]
    · intro h
      unfold add_visited
      rw [if_pos h]
    · intro j
      unfold add_visited
      split
      · rename_i h
        constructor
        · exact fun hj => Or.inr hj
        · rintro (hj | hj)
          · rw [hj]; exact h
          · exact hj
      · exact List.mem_cons
    · unfold visited_before
      simp
  · intro root rootId
    constructor
    · simp [init_state, add_visited]
    · simp [init_state, add_visited, visited_before]

/-- C6 witness: the contract applied at concrete inputs — (2,3) is fresh in
the set holding only (0,1), is inserted, and the root identity (2,3) is
registered before the loop. -/
theorem C6_visited_set_contract_witness :
    (add_visited [((0, 1) : Ident)] (2, 3)).2 = [(2, 3), (0, 1)] ∧
    ((add_visited [((0, 1) : Ident)] (2, 3)).1 = true ↔ (2, 3) ∉ [((0, 1) : Ident)]) ∧
    (2, 3) ∈ (init_state (root_frame "R" (2, 3)) (2, 3) true).visited :=
  ⟨(C6_visited_set_contract.1 [(0, 1)] (2, 3)).2.1 (by decide),
   (C6_visited_set_contract.1 [(0, 1)] (2, 3)).1,
   (C6_visited_set_contract.2 (root_frame "R" (2, 3)) (2, 3)).1⟩

/-- C7: at every point of the traversal (after any number of iterations from
the initial state) the report's TOTAL_file_count equals the sum of the
directory-local file counts computed by the scans performed so far, and
TOTAL_file_size equals the sum of the directory-local byte totals; the
underlying mechanism is that every HandleFiles classification moves the
directory-local and global counters by identical deltas. -/
theorem C7_file_aggregation (fs : FS) (opts : Options) (rootPath : String)
    (rootId : Ident) (rootStatOk : Bool) (n : Nat) :
    ((stepN (step fs opts) n
        (init_state (root_frame rootPath rootId) rootId rootStatOk)).report.TOTAL_file_count =
      scanTraceCount fs opts n (init_state (root_frame rootPath rootId) rootId rootStatOk)) ∧
    ((stepN (step fs opts) n
        (init_state (root_frame rootPath rootId) rootId rootStatOk)).report.TOTAL_file_size =
      scanTraceSize fs opts n (init_state (root_frame rootPath rootId) rootId rootStatOk)) ∧
    (∀ (fname : String) (f : Frame) (st : FType) (lk : Bool) (rl : String)
        (rep : ActivityReport) (sf : Bool),
      ∃ d e : Nat,
        (HandleFiles fname f st lk rl rep sf).1.dir_file_count = f.dir_file_count + d ∧
        (HandleFiles fname f st lk rl rep sf).2.TOTAL_file_count =
          rep.TOTAL_file_count + d ∧
        (HandleFiles fname f st lk rl rep sf).1.dir_file_size = f.dir_file_size + e ∧
        (HandleFiles fname f st lk rl rep sf).2.TOTAL_file_size =
          rep.TOTAL_file_size + e) := by
  have h := stepN_files fs opts n (init_state (root_frame rootPath rootId) rootId rootStatOk)
  refine ⟨?_, ?_, ?_⟩
  · have h1 := h.1
    rw [show (init_state (root_frame rootPath rootId) rootId
      rootStatOk).report.TOTAL_file_count = 0 from rfl, Nat.zero_add] at h1
    exact h1
  · have h2 := h.2
    rw [show (init_state (root_frame rootPath rootId) rootId
      rootStatOk).report.TOTAL_file_size = 0 from rfl, Nat.zero_add] at h2
    exact h2
  · intro fname f st lk rl rep sf
    exact HandleFiles_counts fname f st lk rl rep sf

/-- C8: a directory entry that is a symlink whose target resolution failed is
classified as dangling: the directory-local file count, the global
TOTAL_file_count and TOTAL_linked_files each grow by one, no size total
changes, no directory counter changes, and, when file listing is requested, a
display line annotated [dangling] with the link's raw readlink target is
queued (nothing is queued otherwise). -/
theorem C8_dangling_symlink (fname : String) (f : Frame) (st : FType) (lk : Bool)
    (rl : String) (rep : ActivityReport) (sf : Bool)
    (hlk : lk = true) (hst : st = FType.statFail) :
    (HandleFiles fname f st lk rl rep sf).1.dir_file_count = f.dir_file_count + 1 ∧
    (HandleFiles fname f st lk rl rep sf).1.dir_file_size = f.dir_file_size ∧
    (HandleFiles fname f st lk rl rep sf).2.TOTAL_file_count = rep.TOTAL_file_count + 1 ∧
    (HandleFiles fname f st lk rl rep sf).2.TOTAL_linked_files =
      rep.TOTAL_linked_files + 1 ∧
    (HandleFiles fname f st lk rl rep sf).2.TOTAL_file_size = rep.TOTAL_file_size ∧
    (HandleFiles fname f st lk rl rep sf).2.TOTAL_directories = rep.TOTAL_directories ∧
    (sf = true → (HandleFiles fname f st lk rl rep sf).1.subfiles =
      { name := "@" ++ afterLastSlash fname ++ " -> " ++ rl ++ " [dangling]",
        is_symlink := true } :: f.subfiles) ∧
    (sf = false → (HandleFiles fname f st lk rl rep sf).1.subfiles = f.subfiles) := by
  subst hlk hst
  cases sf <;> simp [HandleFiles, FType.isReg, add_subfile]

/-- C8 witness: the dangling classification evaluated at a concrete entry. -/
theorem C8_dangling_symlink_witness :
    (true : Bool) = true ∧ (FType.statFail : FType) = FType.statFail ∧
    ((HandleFiles "R/broken" (root_frame "R" (1, 1)) FType.statFail true "gone"
        zeroReport true).1.dir_file_count = (root_frame "R" (1, 1)).dir_file_count + 1 ∧
     (HandleFiles "R/broken" (root_frame "R" (1, 1)) FType.statFail true "gone"
        zeroReport true).1.dir_file_size = (root_frame "R" (1, 1)).dir_file_size ∧
     (HandleFiles "R/broken" (root_frame "R" (1, 1)) FType.statFail true "gone"
        zeroReport true).2.TOTAL_file_count = zeroReport.TOTAL_file_count + 1 ∧
     (HandleFiles "R/broken" (root_frame "R" (1, 1)) FType.statFail true "gone"
        zeroReport true).2.TOTAL_linked_files = zeroReport.TOTAL_linked_files + 1 ∧
     (HandleFiles "R/broken" (root_frame "R" (1, 1)) FType.statFail true "gone"
        zeroReport true).2.TOTAL_file_size = zeroReport.TOTAL_file_size ∧
     (HandleFiles "R/broken" (root_frame "R" (1, 1)) FType.statFail true "gone"
        zeroReport true).2.TOTAL_directories = zeroReport.TOTAL_directories ∧
     (true = true → (HandleFiles "R/broken" (root_frame "R" (1, 1)) FType.statFail true
        "gone" zeroReport true).1.subfiles =
        { name := "@" ++ afterLastSlash "R/broken" ++ " -> " ++ "gone" ++ " [dangling]",
          is_symlink := true } :: (root_frame "R" (1, 1)).subfiles) ∧
     (true = false → (HandleFiles "R/broken" (root_frame "R" (1, 1)) FType.statFail true
        "gone" zeroReport true).1.subfiles = (root_frame "R" (1, 1)).subfiles)) :=
  ⟨rfl, rfl, C8_dangling_symlink "R/broken" (root_frame "R" (1, 1)) FType.statFail true
    "gone" zeroReport true rfl rfl⟩

theorem track_max_depth_dirs (r : ActivityReport) (d : Nat) :
    (track_max_depth r d).TOTAL_directories = r.TOTAL_directories := by
  unfold track_max_depth
  split <;> rfl

/-- C9: if the root path cannot be opened the process fails with exit code 1
before producing any stdout; if a non-root plain directory cannot be opened
during the drain, no frame is created for it, nothing is registered, counted
or printed for it — only a diagnostic goes to the error stream and the walk
moves on past the subtree; and whenever the root is openable the whole walk
completes with exit code 0. -/
theorem C9_unopenable_directories (fs : FS) (opts : Options) (rootPath : String)
    (rootId : Ident) (rootStatOk : Bool) (f : Frame) (rest : List Frame)
    (cur : SubDirNode) (v : List Ident) (rep : ActivityReport) (out err : List String)
    (a : Ident)
    (hroot : fs.openable rootId = false)
    (hsym : cur.is_symlink = false) (htgt : cur.target = FType.dir a)
    (hop : fs.openable a = false) (hnv : a ∉ v) (hdl : f.depth + 1 < opts.max_depth) :
    gtree_main fs opts rootPath rootId rootStatOk =
      some ⟨1, [], ["Invalid starting directory specified"], zeroReport⟩ ∧
    drain_child fs opts f rest cur v rep out err =
      ⟨advance_frame opts f f.pending.isEmpty :: rest, v, rep, out, err ++ ["opendir"]⟩ ∧
    (∀ rid2 : Ident, fs.openable rid2 = true →
      ∃ r, gtree_main fs opts rootPath rid2 rootStatOk = some r ∧ r.exit_code = 0) := by
  refine ⟨?_, ?_, ?_⟩
  · unfold gtree_main
    rw [if_pos hroot]
  · have hvb : visited_before v a = false := by simpa [visited_before] using hnv
    have hdk : decide (opts.max_depth ≤ f.depth + 1) = false := by
      simp
      omega
    simp only [drain_child, hsym, htgt, FType.statOk, FType.ident, FType.isDir,
      Bool.true_and, Bool.and_true, Bool.false_eq_true, if_false, advance_frame_depth,
      hvb, hdk, Bool.not_false, Bool.true_and, if_true]
    unfold Create_Frame
    rw [if_neg (by simp [hop])]
  · intro rid2 hopen2
    unfold gtree_main
    rw [if_neg (by simp [hopen2]), Create_Frame_root fs rootPath rid2 hopen2]
    have hwf0 : StateWF fs (init_state (root_frame rootPath rid2) rid2 rootStatOk) := by
      intro g hg n hn
      simp only [init_state, List.mem_singleton] at hg
      rw [hg] at hn
      simp [root_frame] at hn
    obtain ⟨st', hst'⟩ := Option.isSome_iff_exists.mp (runWith_step_total fs opts
      (gmeasure fs (init_state (root_frame rootPath rid2) rid2 rootStatOk) + 1)
      (init_state (root_frame rootPath rid2) rid2 rootStatOk) hwf0 (by omega))
    refine ⟨⟨0, st'.stdout, st'.stderr, st'.report⟩, ?_, rfl⟩
    simp only [hst']

theorem C9_unopenable_directories_witness :
    c9FS.openable (9, 9) = false ∧
    (⟨"R/D", false, "", FType.dir (2, 2)⟩ : SubDirNode).is_symlink = false ∧
    c9FS.openable (2, 2) = false ∧
    ((2, 2) : Ident) ∉ [((1, 1) : Ident)] ∧
    (root_frame "R" (1, 1)).depth + 1 < section8Opts.max_depth ∧
    (gtree_main c9FS section8Opts "R" (9, 9) true =
      some ⟨1, [], ["Invalid starting directory specified"], zeroReport⟩ ∧
    drain_child c9FS section8Opts (root_frame "R" (1, 1)) []
        ⟨"R/D", false, "", FType.dir (2, 2)⟩ [(1, 1)] zeroReport [] [] =
      ⟨advance_frame section8Opts (root_frame "R" (1, 1))
          (root_frame "R" (1, 1)).pending.isEmpty :: [], [(1, 1)], zeroReport, [],
        [] ++ ["opendir"]⟩ ∧
    (∀ rid2 : Ident, c9FS.openable rid2 = true →
      ∃ r, gtree_main c9FS section8Opts "R" rid2 true = some r ∧ r.exit_code = 0)) :=
  ⟨by decide, rfl, by decide, by decide, by decide,
    C9_unopenable_directories c9FS section8Opts "R" (9, 9) true (root_frame "R" (1, 1)) []
      ⟨"R/D", false, "", FType.dir (2, 2)⟩ [(1, 1)] zeroReport [] [] (2, 2)
      (by decide) rfl rfl (by decide) (by decide) (by decide)⟩

/-- C10: a plain (non-symlink) directory child that is not descended into —
its identity already visited, or the depth limit hit — is still registered in
the visited set, still bumps TOTAL_directories when its identity is new (so
depth-limited directories that are never entered are counted), records depth
frame->depth + 1 in the max-depth tracking, and pushes no frame. -/
theorem C10_register_without_descending (fs : FS) (opts : Options) (f : Frame)
    (rest : List Frame) (cur : SubDirNode) (v : List Ident) (rep : ActivityReport)
    (out err : List String) (a : Ident)
    (hsym : cur.is_symlink = false) (htgt : cur.target = FType.dir a)
    (hcase : a ∈ v ∨ opts.max_depth ≤ f.depth + 1) :
    (drain_child fs opts f rest cur v rep out err).visited = (add_visited v a).2 ∧
    (drain_child fs opts f rest cur v rep out err).report.TOTAL_directories =
      (if a ∈ v then rep.TOTAL_directories else rep.TOTAL_directories + 1) ∧
    (drain_child fs opts f rest cur v rep out err).report.TOTAL_depth =
      max rep.TOTAL_depth (f.depth + 1) ∧
    (drain_child fs opts f rest cur v rep out err).stack =
      advance_frame opts f f.pending.isEmpty :: rest := by
  have hcondf : (!visited_before v a &&
      !decide (opts.max_depth ≤ f.depth + 1)) = false := by
    rcases hcase with h | h
    · have : visited_before v a = true := by simpa [visited_before] using h
      simp [this]
    · simp [decide_eq_true h]
  simp only [drain_child, hsym, htgt, FType.statOk, FType.ident, FType.isDir,
    Bool.true_and, Bool.and_true, Bool.false_eq_true, if_false, advance_frame_depth,
    hcondf, if_true]
  by_cases hm : a ∈ v
  · simp [add_visited, hm, track_max_depth_dirs, track_max_depth_depth]
  · simp [add_visited, hm, track_max_depth_dirs, track_max_depth_depth]

/-- C10 witness: a depth-limited fresh plain directory child — registered and
counted although never entered, with the attempted depth recorded. -/
theorem C10_register_without_descending_witness :
    (⟨"R/A/B", false, "", FType.dir (7, 7)⟩ : SubDirNode).is_symlink = false ∧
    (((7, 7) : Ident) ∈ [((1, 1) : Ident)] ∨
      chainOpts.max_depth ≤ ({ root_frame "R" (1, 1) with depth := 1 } : Frame).depth + 1) ∧
    ((drain_child chainFS chainOpts { root_frame "R" (1, 1) with depth := 1 } []
        ⟨"R/A/B", false, "", FType.dir (7, 7)⟩ [(1, 1)] zeroReport [] []).visited =
      (add_visited [(1, 1)] (7, 7)).2 ∧
    (drain_child chainFS chainOpts { root_frame "R" (1, 1) with depth := 1 } []
        ⟨"R/A/B", false, "", FType.dir (7, 7)⟩ [(1, 1)] zeroReport [] []).report.TOTAL_directories =
      (if ((7, 7) : Ident) ∈ [((1, 1) : Ident)] then zeroReport.TOTAL_directories
       else zeroReport.TOTAL_directories + 1) ∧
    (drain_child chainFS chainOpts { root_frame "R" (1, 1) with depth := 1 } []
        ⟨"R/A/B", false, "", FType.dir (7, 7)⟩ [(1, 1)] zeroReport [] []).report.TOTAL_depth =
      max zeroReport.TOTAL_depth (({ root_frame "R" (1, 1) with depth := 1 } : Frame).depth + 1) ∧
    (drain_child chainFS chainOpts { root_frame "R" (1, 1) with depth := 1 } []
        ⟨"R/A/B", false, "", FType.dir (7, 7)⟩ [(1, 1)] zeroReport [] []).stack =
      advance_frame chainOpts { root_frame "R" (1, 1) with depth := 1 }
        ({ root_frame "R" (1, 1) with depth := 1 } : Frame).pending.isEmpty :: []) :=
  ⟨rfl, Or.inr (by decide),
    C10_register_without_descending chainFS chainOpts
      { root_frame "R" (1, 1) with depth := 1 } []
      ⟨"R/A/B", false, "", FType.dir (7, 7)⟩ [(1, 1)] zeroReport [] [] (7, 7)
      rfl rfl (Or.inr (by decide))⟩

/-- C3 witness: the recursion-marker and no-push behaviour applied to the
section 8 loop state. -/
theorem C3_symlink_ancestor_recursion_witness :
    c3State.stack = c3Top :: [c3Root] ∧
    c3Top.scanned = true ∧
    c3Top.pending = c3Cur :: [] ∧
    c3Cur.is_symlink = true ∧
    c3Cur.target = FType.dir (1, 1) ∧
    ((1, 1) : Ident) ∈ (c3Top :: [c3Root]).map (fun g => g.id) ∧
    (∀ g ∈ c3State.stack, g.id ∈ c3State.visited) ∧
    ((∃ pre, (step section8FS section8Opts c3State).stdout = c3State.stdout ++
        [pre ++ ("@" ++ dir_name_of c3Cur.path (c3Top.depth + 1) ++ " -> " ++
          c3Cur.sym_path ++ " [recursive]")]) ∧
      (step section8FS section8Opts c3State).stack.map (fun g => g.id) =
        c3State.stack.map (fun g => g.id) ∧
      (step section8FS section8Opts c3State).stack.length = c3State.stack.length ∧
      (step section8FS section8Opts c3State).visited = c3State.visited ∧
      (∀ (rootPath : String) (rootId : Ident) (rStat : Bool),
        section8FS.openable rootId = true →
        (gtree_main section8FS section8Opts rootPath rootId rStat).isSome = true)) :=
  ⟨rfl, rfl, rfl, rfl, rfl, by decide, by decide,
    C3_symlink_ancestor_recursion section8FS section8Opts c3State c3Top [c3Root] c3Cur []
      (1, 1) rfl rfl rfl rfl rfl (by decide) (by decide)⟩

/-- C2 witness: the amended ordering fact applied to the two-file directory. -/
theorem scan_output_order_witness :
    twoFilesOpts.show_files = true ∧
    (init_state (root_frame "R" (1, 1)) (1, 1) true).stack = root_frame "R" (1, 1) :: [] ∧
    (root_frame "R" (1, 1)).scanned = false ∧
    (root_frame "R" (1, 1)).subfiles = [] ∧
    (c2Frame.subfiles = (enumQueue twoFilesOpts (root_frame "R" (1, 1)).path
        (twoFilesFS.entries (root_frame "R" (1, 1)).id)).reverse ∧
     ∃ tail, (step twoFilesFS twoFilesOpts
        (init_state (root_frame "R" (1, 1)) (1, 1) true)).stdout =
      (init_state (root_frame "R" (1, 1)) (1, 1) true).stdout ++
      (print_entry_line (some c2Frame) c2Frame.is_last false "" false
          twoFilesOpts.show_file_stats "" true twoFilesOpts.colour_files
        :: (((enumQueue twoFilesOpts (root_frame "R" (1, 1)).path
            (twoFilesFS.entries (root_frame "R" (1, 1)).id)).map (fun sf =>
            print_entry_line (some c2Frame) c2Frame.is_last sf.is_symlink "" false
              twoFilesOpts.show_file_stats sf.name false twoFilesOpts.colour_files)).reverse
          ++ tail))) :=
  ⟨rfl, rfl, rfl, rfl,
    scan_output_order twoFilesFS twoFilesOpts
      (init_state (root_frame "R" (1, 1)) (1, 1) true) (root_frame "R" (1, 1)) []
      rfl rfl rfl rfl⟩

end GTree
